import Mathlib

/-!
Shallow embedding of the placement engine of `src/scheduler_v2.js`
(SchedulePro).  JS numbers that hold day numbers, room numbers, day
counts and calendar dates are modelled as `Int`; `null`/missing fields
as `Option`; the string-keyed nested objects `schedule[eventId][courseId]`,
`assignments[courseId]`, `eventRooms[eventId]` and the unavailability map
as association lists.  Calendar dates are modelled as integers (days
since an arbitrary epoch): string parsing/formatting of dates belongs to
the adapters that the specification places out of scope.
-/

namespace SchedulePro

/-- A placement record, as stored in `schedule[eventId][courseId]`
(scheduler_v2.js line 14).  JS records written without an `isDraft`
field read back as `undefined`, which is falsy, so they are modelled
with `isDraft = false`. -/
structure Placement where
  startDay : Option Int
  days : List Int
  roomNumber : Option Int
  isDraft : Bool
deriving Repr, DecidableEq

/-- A course record from the courses list (`Course_ID`, `Instructor`,
`Course_Name`, `Duration_Days`).  `Duration_Days` is kept as the raw
string it is parsed from; the functions embedded here never consume it
numerically (the import path derives days from dates, and the drag/drop
path receives a precomputed integer `daysNeeded`). -/
structure Course where
  Course_ID : String
  Instructor : String
  Course_Name : String
  Duration_Days : String
deriving Repr, DecidableEq

/-- An event record (`events[]` entry). -/
structure EventRec where
  Event_ID : String
  Event : String
  Total_Days : Int
deriving Repr, DecidableEq

/-- A day record (`eventDays[]` entry): day number within the event and
its calendar date (modelled as an integer). -/
structure EventDay where
  Event_ID : String
  Event_Name : String
  Day_Number : Int
  Day_Date : Int
deriving Repr, DecidableEq

/-- The flat schedule store: `schedule[eventId][courseId] = placement`
becomes an association list keyed by the pair `(eventId, courseId)`. -/
abbrev Sched := List ((String × String) × Placement)

/-- Reads `schedule[eventId]?.[courseId]`. -/
def schedFind? (s : Sched) (e c : String) : Option Placement :=
  (s.find? (fun kv => kv.1.1 == e && kv.1.2 == c)).map Prod.snd

/-- Models the assignment `schedule[eventId][courseId] = p`. -/
def schedSet (s : Sched) (e c : String) (p : Placement) : Sched :=
  s.filter (fun kv => !(kv.1.1 == e && kv.1.2 == c)) ++ [((e, c), p)]

/-- Models `delete schedule[eventId][courseId]`. -/
def schedErase (s : Sched) (e c : String) : Sched :=
  s.filter (fun kv => !(kv.1.1 == e && kv.1.2 == c))

/-- The `(courseId, placement)` pairs of one event, i.e. what
`for (const otherCourseId in schedule[eventId])` iterates over. -/
def eventEntries (s : Sched) (e : String) : List (String × Placement) :=
  (s.filter (fun kv => kv.1.1 == e)).map (fun kv => (kv.1.2, kv.2))

/-- A draft candidate held in `draftLists[uniqueId]`
(scheduler_v2.js lines 6291-6331). -/
structure DraftItem where
  courseId : String
  courseName : String
  instructor : String
  duration : Int
  eventId : String
  roomNumber : Int
  startDay : Int
  endDay : Int
deriving Repr, DecidableEq

/-- The mutable module state of scheduler_v2.js that the embedded
functions read and write: `courses`, `events`, `eventDays`,
`eventRooms`, `lockedEvents`, `unavailabilityMap`, `schedule`,
`assignments` and `draftLists`. -/
structure AppState where
  courses : List Course
  events : List EventRec
  eventDays : List EventDay
  eventRooms : List (String × Int)
  lockedEvents : List String
  unavailabilityMap : List ((String × String) × List Int)
  schedule : Sched
  assignments : List (String × List String)
  draftLists : List (String × List DraftItem)
deriving Repr, DecidableEq

/-- Reads `unavailabilityMap[instructor-eventId] || []`
(`getBlockedDays`, scheduler_v2.js lines 1118-1121); the string key
`instructor + "-" + eventId` is modelled as the pair of its parts. -/
def getBlockedDays (st : AppState) (instructor eventId : String) : List Int :=
  ((st.unavailabilityMap.find? (fun kv => kv.1.1 == instructor && kv.1.2 == eventId)).map
    Prod.snd).getD []

/-- Reads `eventRooms[eventId] || 1`: a missing entry and the falsy
value `0` both yield the default room count 1. -/
def roomCountOf (st : AppState) (e : String) : Int :=
  match st.eventRooms.find? (fun kv => kv.1 == e) with
  | some kv => if kv.2 == 0 then 1 else kv.2
  | none => 1

/-- Models `eventRooms[eventId] = n`. -/
def roomsSet (a : List (String × Int)) (e : String) (n : Int) : List (String × Int) :=
  if a.any (fun kv => kv.1 == e) then
    a.map (fun kv => if kv.1 == e then (kv.1, n) else kv)
  else a ++ [(e, n)]

/-- Reads `assignments[courseId]`, defaulting to the empty list. -/
def assignedEvents (a : List (String × List String)) (c : String) : List String :=
  ((a.find? (fun kv => kv.1 == c)).map Prod.snd).getD []

/-- Models `assignments[courseId] = l`. -/
def assignSet (a : List (String × List String)) (c : String) (l : List String) :
    List (String × List String) :=
  if a.any (fun kv => kv.1 == c) then
    a.map (fun kv => if kv.1 == c then (kv.1, l) else kv)
  else a ++ [(c, l)]

/-- Models the JS pattern that creates a missing assignment list and
then pushes the event when absent (`assignments[c].push(e)`), as used
by the bulk-import and draft-promotion paths. -/
def assignAdd (a : List (String × List String)) (c e : String) :
    List (String × List String) :=
  let l := assignedEvents a c
  if l.contains e then assignSet a c l else assignSet a c (l ++ [e])

/-- Models the JS filter that drops one event id from a course's
assignment list (`assignments[c].filter(id => id !== e)`). -/
def assignRemove (a : List (String × List String)) (c e : String) :
    List (String × List String) :=
  a.map (fun kv => if kv.1 == c then (kv.1, kv.2.filter (fun id => id != e)) else kv)

/-- Reads `courses.find(c => c.Course_ID === cid)?.Course_Name || cid`:
a missing course, and the falsy empty name, both fall back to the id. -/
def courseNameOr (courses : List Course) (cid : String) : String :=
  match courses.find? (fun c => c.Course_ID == cid) with
  | some c => if c.Course_Name == "" then cid else c.Course_Name
  | none => cid

/-- Models the JS expression `x || 1` on a nullable room number: `null`
and the falsy `0` both yield 1. -/
def jsOr1 (x : Option Int) : Int :=
  match x with
  | some r => if r == 0 then 1 else r
  | none => 1

/-- The room-conflict scan shared verbatim by `handleTimelineDropGrid`
(lines 5941-5955), `changeCourseRoom` (lines 2532-2547) and
`selectRoomGrid` (lines 5672-5686): every *other* course of the event
whose placement sits in the same room with an overlapping `days` list
contributes its display name.  The scan never consults `isDraft`. -/
def roomConflictNames (st : AppState) (eventId courseId : String)
    (roomNumber : Int) (days : List Int) : List String :=
  (eventEntries st.schedule eventId).filterMap (fun ec =>
    if ec.1 == courseId then none
    else if ec.2.roomNumber == some roomNumber && days.any (fun d => ec.2.days.contains d)
    then some (courseNameOr st.courses ec.1)
    else none)

/-- Translation of the function `calculateSnapPosition`
(scheduler_v2.js lines 2330-2347): raise the start to 1,
lower it to the last valid start `totalDays - daysNeeded + 1`, and
return `null` when the course is longer than the event. -/
def calculateSnapPosition (targetDay daysNeeded totalDays : Int) : Option Int :=
  let t1 := if targetDay < 1 then 1 else targetDay
  let lastValidStart := totalDays - daysNeeded + 1
  let t2 := if t1 > lastValidStart then lastValidStart else t1
  if daysNeeded > totalDays then none else some t2

/-- Builds the occupied day list, the loop pushing `snapDay + i` for
each offset below the duration (lines 5915-5918; the same loop
shape appears in `applyDraftCourse` lines 6410-6413). -/
def courseDaysFrom (snapDay daysNeeded : Int) : List Int :=
  (List.range daysNeeded.toNat).map (fun i : Nat => snapDay + (i : Int))

/-- The instructor of the course rendered on a timeline
(`courses.find(c => c.Course_ID === courseId).Instructor`; a missing
course renders an empty instructor). -/
def instructorOf (st : AppState) (courseId : String) : String :=
  ((st.courses.find? (fun c => c.Course_ID == courseId)).map Course.Instructor).getD ""

/-- The drag payload `draggedBlock` used by the grid drop handler. -/
structure DraggedBlock where
  courseId : String
  eventId : String
  daysNeeded : Int
deriving Repr, DecidableEq

/-- Outcome of `handleTimelineDropGrid`: each early `return` of the JS
function becomes a constructor. -/
inductive DropResult where
  | locked
  | mismatch
  | noSnap
  | instructorConflict (conflictingDays : List Int)
  | noRoom
  | roomConflict (conflictNames : List String)
  | accepted (snapDay : Int) (days : List Int) (roomNumber : Int)
deriving Repr, DecidableEq

/-- Translation of `handleTimelineDropGrid(e)` (scheduler_v2.js lines
5884-5983).  The DOM-derived inputs become parameters: the timeline's
`data-course-id`, `data-event-id` and `data-total-days` attributes, and
`targetDay = Math.floor(x / dayWidth) + 1` computed from the mouse
position.  The timeline's `data-blocked-days` attribute is rendered at
line 5613 as `getBlockedDays(course.Instructor, eventId).join(',')`, so
it is recomputed here through `getBlockedDays` on the timeline's course.
Rendering calls (`renderSwimlanesGrid` etc.) are out of scope. -/
def handleTimelineDropGrid (st : AppState) (dragged : DraggedBlock)
    (timelineCourseId timelineEventId : String) (totalDays targetDay : Int) :
    AppState × DropResult :=
  if st.lockedEvents.contains timelineEventId then (st, .locked)
  else if !(timelineCourseId == dragged.courseId && timelineEventId == dragged.eventId) then
    (st, .mismatch)
  else
    match calculateSnapPosition targetDay dragged.daysNeeded totalDays with
    | none => (st, .noSnap)
    | some snapDay =>
      let blockedDays := getBlockedDays st (instructorOf st timelineCourseId) timelineEventId
      let courseDays := courseDaysFrom snapDay dragged.daysNeeded
      if courseDays.any (fun d => blockedDays.contains d) then
        (st, .instructorConflict (blockedDays.filter (fun d => courseDays.contains d)))
      else
        let currentPlacement := schedFind? st.schedule dragged.eventId dragged.courseId
        -- `currentPlacement?.roomNumber ?? 1` (nullish coalescing)
        let roomNumber :=
          match currentPlacement with
          | some p => p.roomNumber.getD 1
          | none => 1
        -- `roomNumber === null || currentPlacement?.roomNumber === null`
        if (match currentPlacement with
            | some p => p.roomNumber == none
            | none => false) then
          (st, .noRoom)
        else
          let conflicts := roomConflictNames st dragged.eventId dragged.courseId
            roomNumber courseDays
          if conflicts.isEmpty then
            let p : Placement :=
              { startDay := some snapDay, days := courseDays,
                roomNumber := some roomNumber, isDraft := false }
            ({ st with schedule := schedSet st.schedule dragged.eventId dragged.courseId p },
             .accepted snapDay courseDays roomNumber)
          else (st, .roomConflict conflicts)

/-- Outcome of `changeCourseRoom`. -/
inductive ChangeRoomResult where
  | notPlaced
  | roomConflict (conflictNames : List String)
  | moved (oldRoom : Int)
deriving Repr, DecidableEq

/-- Translation of `changeCourseRoom(eventId, courseId, newRoomNumber)`
(scheduler_v2.js lines 2523-2568).  Note this function has no
locked-event gate in the source. -/
def changeCourseRoom (st : AppState) (eventId courseId : String)
    (newRoomNumber : Int) : AppState × ChangeRoomResult :=
  match schedFind? st.schedule eventId courseId with
  | none => (st, .notPlaced)
  | some placement =>
    let oldRoom := jsOr1 placement.roomNumber
    let conflicts := roomConflictNames st eventId courseId newRoomNumber placement.days
    if conflicts.isEmpty then
      let placement2 := { placement with roomNumber := some newRoomNumber }
      ({ st with schedule := schedSet st.schedule eventId courseId placement2 },
       .moved oldRoom)
    else (st, .roomConflict conflicts)

/-- Translation of `removeCourseFromEvent(courseId, eventId)`
(scheduler_v2.js lines 2395-2424): drop the event from the course's
assignment list and delete the schedule entry. -/
def removeCourseFromEvent (st : AppState) (courseId eventId : String) : AppState :=
  { st with
      assignments := assignRemove st.assignments courseId eventId,
      schedule := schedErase st.schedule eventId courseId }

/-- Translation of `handleAssignmentChange(courseId, eventId, isChecked)`
(scheduler_v2.js lines 1255-1284): ensure the course's assignment list
exists; on check, push the event if missing (no schedule write); on
uncheck, filter the event out and delete any schedule entry. -/
def handleAssignmentChange (st : AppState) (courseId eventId : String)
    (isChecked : Bool) : AppState :=
  let a0 :=
    if st.assignments.any (fun kv => kv.1 == courseId) then st.assignments
    else st.assignments ++ [(courseId, [])]
  if isChecked then
    let l := assignedEvents a0 courseId
    { st with assignments :=
        if l.contains eventId then a0 else assignSet a0 courseId (l ++ [eventId]) }
  else
    { st with
        assignments := assignRemove a0 courseId eventId,
        schedule := schedErase st.schedule eventId courseId }

/-- The affected-course list computed by `editRoomCount` when reducing
the room count (scheduler_v2.js lines 2447-2459): placements whose room
number exceeds the new count, reported as (display name, room).  The JS
comparison `placement.roomNumber > numRooms` coerces `null` to 0. -/
def affectedByRoomReduction (st : AppState) (eventId : String) (numRooms : Int) :
    List (String × Int) :=
  (eventEntries st.schedule eventId).filterMap (fun ec =>
    if ec.2.roomNumber.getD 0 > numRooms then
      some (courseNameOr st.courses ec.1, ec.2.roomNumber.getD 0)
    else none)

/-- Outcome of `editRoomCount`. -/
inductive RoomCountResult where
  | locked
  | invalidInput
  | noChange
  | cancelled (affected : List (String × Int))
  | applied (affected : List (String × Int))
deriving Repr, DecidableEq

/-- Translation of `editRoomCount(eventId, currentCount)`
(scheduler_v2.js lines 2427-2504).  The `prompt` result is modelled as
`numRooms : Option Int` (`none` for a non-numeric entry; a cancelled
prompt simply never reaches this logic) and the cascading-warning
`confirm` as `confirmProceed`.  When the reduction displaces placements
and the user confirms, each out-of-range placement is deleted from the
schedule and the event removed from that course's assignment list; then
the room count is stored. -/
def editRoomCount (st : AppState) (eventId : String) (currentCount : Int)
    (numRooms : Option Int) (confirmProceed : Bool) : AppState × RoomCountResult :=
  if st.lockedEvents.contains eventId then (st, .locked)
  else
    match numRooms with
    | none => (st, .invalidInput)
    | some numRooms =>
      if numRooms < 1 then (st, .invalidInput)
      else if numRooms == currentCount then (st, .noChange)
      else
        let finish (st1 : AppState) (affected : List (String × Int)) :
            AppState × RoomCountResult :=
          ({ st1 with eventRooms := roomsSet st1.eventRooms eventId numRooms },
           .applied affected)
        if numRooms < currentCount then
          let affected := affectedByRoomReduction st eventId numRooms
          if affected.isEmpty then finish st []
          else if !confirmProceed then (st, .cancelled affected)
          else
            let toRemove := (eventEntries st.schedule eventId).filterMap (fun ec =>
              if ec.2.roomNumber.getD 0 > numRooms then some ec.1 else none)
            let st1 : AppState :=
              { st with
                  schedule := st.schedule.filter (fun kv =>
                    !(kv.1.1 == eventId && kv.2.roomNumber.getD 0 > numRooms)),
                  assignments := toRemove.foldl
                    (fun a c => assignRemove a c eventId) st.assignments }
            finish st1 affected
        else finish st []

/-- The three-button conflict dialog of `selectRoomGrid`. -/
inductive RoomDialogChoice where
  | replace
  | cancel
  | draft
deriving Repr, DecidableEq

/-- Outcome of `selectRoomGrid`. -/
inductive SelectRoomResult where
  | locked
  | created
  | deselected
  | conflictCancelled
  | conflictDraft
  | roomSet
deriving Repr, DecidableEq

/-- Translation of `selectRoomGrid(eventId, courseId, roomNumber)`
(scheduler_v2.js lines 5638-5761).  The awaited three-button dialog
becomes the `choice` parameter (only consulted when a conflict is
found).  A fresh entry is created with `startDay: null, days: []` and no
`isDraft` field (hence non-draft); clicking the current room deselects
it; on a conflict the user may cancel, mark the overlapping placements
(and this course) as drafts, or clear the conflicting placements' rooms
and take the room. -/
def selectRoomGrid (st : AppState) (eventId courseId : String) (roomNumber : Int)
    (choice : RoomDialogChoice) : AppState × SelectRoomResult :=
  if st.lockedEvents.contains eventId then (st, .locked)
  else
    match schedFind? st.schedule eventId courseId with
    | none =>
      let p : Placement :=
        { startDay := none, days := [], roomNumber := some roomNumber, isDraft := false }
      ({ st with schedule := schedSet st.schedule eventId courseId p }, .created)
    | some placement =>
      if placement.roomNumber == some roomNumber then
        let placement2 := { placement with roomNumber := none }
        ({ st with schedule := schedSet st.schedule eventId courseId placement2 },
         .deselected)
      else
        let hasDays := placement.startDay.isSome && !placement.days.isEmpty
        let conflicts :=
          if hasDays then roomConflictNames st eventId courseId roomNumber placement.days
          else []
        if hasDays && !conflicts.isEmpty then
          match choice with
          | .cancel => (st, .conflictCancelled)
          | .draft =>
            -- mark every same-room overlapping placement (and this course) as draft
            let sched1 := st.schedule.map (fun kv =>
              if kv.1.1 == eventId && kv.2.roomNumber == some roomNumber &&
                  (placement.days.any (fun d => kv.2.days.contains d) || kv.1.2 == courseId)
              then (kv.1, { kv.2 with isDraft := true })
              else kv)
            -- then assign the room to this course and mark it draft
            let self := (schedFind? sched1 eventId courseId).getD placement
            let self2 := { self with roomNumber := some roomNumber, isDraft := true }
            ({ st with schedule := schedSet sched1 eventId courseId self2 },
             .conflictDraft)
          | .replace =>
            -- clear the room of every other same-room overlapping placement
            let sched1 := st.schedule.map (fun kv =>
              if kv.1.1 == eventId && kv.1.2 != courseId &&
                  kv.2.roomNumber == some roomNumber &&
                  placement.days.any (fun d => kv.2.days.contains d)
              then (kv.1, { kv.2 with roomNumber := none })
              else kv)
            let self := (schedFind? sched1 eventId courseId).getD placement
            let self2 := { self with roomNumber := some roomNumber }
            ({ st with schedule := schedSet sched1 eventId courseId self2 }, .roomSet)
        else
          let placement2 := { placement with roomNumber := some roomNumber }
          ({ st with schedule := schedSet st.schedule eventId courseId placement2 },
           .roomSet)

/-- Reads `draftLists[uniqueId] || []`. -/
def draftListOf (st : AppState) (uniqueId : String) : List DraftItem :=
  ((st.draftLists.find? (fun kv => kv.1 == uniqueId)).map Prod.snd).getD []

/-- Models `draftLists[uniqueId] = l`. -/
def draftListsSet (a : List (String × List DraftItem)) (u : String)
    (l : List DraftItem) : List (String × List DraftItem) :=
  if a.any (fun kv => kv.1 == u) then
    a.map (fun kv => if kv.1 == u then (kv.1, l) else kv)
  else a ++ [(u, l)]

/-- Translation of `removeDraftCourse(uniqueId, index)` (scheduler_v2.js
lines 6366-6378): no-op when the list is missing or the event of the
indexed item is locked; otherwise `splice(index, 1)` (a no-op when the
index is out of range, as is `List.eraseIdx`). -/
def removeDraftCourse (st : AppState) (uniqueId : String) (index : Nat) : AppState :=
  match st.draftLists.find? (fun kv => kv.1 == uniqueId) with
  | none => st
  | some _ =>
    let items := draftListOf st uniqueId
    match items.get? index with
    | some it =>
      if st.lockedEvents.contains it.eventId then st
      else { st with draftLists := draftListsSet st.draftLists uniqueId (items.eraseIdx index) }
    | none =>
      { st with draftLists := draftListsSet st.draftLists uniqueId (items.eraseIdx index) }

/-- Outcome of `applyDraftCourse`. -/
inductive ApplyDraftResult where
  | noItem
  | locked
  | noLongerFits
  | alreadyScheduled
  | courseMissing
  | instructorConflict
  | applied (days : List Int)
deriving Repr, DecidableEq

/-- Translation of `applyDraftCourse(uniqueId, index)` (scheduler_v2.js
lines 6381-6456).  The re-validation on promotion checks only (a) the
locked flag, (b) that the stored slot length still fits the duration,
(c) that the course is not already scheduled with days, and (d)
instructor blocked days; it never rescans room/day occupancy.  On the
already-scheduled path the candidate is removed from the slot list; on
success a non-draft placement is committed, the event is added to the
course's assignments and the candidate is removed from this slot's list
only.  (`courseMissing` marks the state-preserving spot where the JS
would throw a TypeError on `course.Instructor`.) -/
def applyDraftCourse (st : AppState) (uniqueId : String) (index : Nat) :
    AppState × ApplyDraftResult :=
  match (draftListOf st uniqueId).get? index with
  | none => (st, .noItem)
  | some item =>
    if st.lockedEvents.contains item.eventId then (st, .locked)
    else
      let daysAvailable := item.endDay - item.startDay + 1
      if item.duration > daysAvailable then (st, .noLongerFits)
      else
        let placement := schedFind? st.schedule item.eventId item.courseId
        if (match placement with
            | some p => !p.days.isEmpty
            | none => false) then
          (removeDraftCourse st uniqueId index, .alreadyScheduled)
        else
          let courseDays := courseDaysFrom item.startDay item.duration
          match st.courses.find? (fun c => c.Course_ID == item.courseId) with
          | none => (st, .courseMissing)
          | some course =>
            let blockedDays := getBlockedDays st course.Instructor item.eventId
            if courseDays.any (fun d => blockedDays.contains d) then
              (st, .instructorConflict)
            else
              let p : Placement :=
                { startDay := some item.startDay, days := courseDays,
                  roomNumber := some item.roomNumber, isDraft := false }
              let st1 : AppState :=
                { st with
                    assignments := assignAdd st.assignments item.courseId item.eventId,
                    schedule := schedSet st.schedule item.eventId item.courseId p }
              (removeDraftCourse st1 uniqueId index, .applied courseDays)

/-- Stable insertion of `x` into `l`, the helper of `sortBy`. -/
def insertSorted (le : α → α → Bool) (x : α) : List α → List α
  | [] => [x]
  | y :: ys => if le x y then x :: y :: ys else y :: insertSorted le x ys

/-- Stable insertion sort, modelling the JS `Array.prototype.sort`
calls (ascending by the given key). -/
def sortBy (le : α → α → Bool) : List α → List α
  | [] => []
  | x :: xs => insertSorted le x (sortBy le xs)

/-- Comparator of the `.sort((a, b) => a.Day_Number - b.Day_Number)`
calls on event-day lists. -/
def dayNumLe (a b : EventDay) : Bool := a.Day_Number ≤ b.Day_Number

/-- The inclusive integer range `for (let i = s; i <= e; i++)` used to
build `dayNumbers`. -/
def intRangeIncl (s e : Int) : List Int :=
  (List.range (e - s + 1).toNat).map (fun i : Nat => s + (i : Int))

/-- The match record returned by `findEventDaysForDates` /
`findEventForDateRange`. -/
structure DayMatch where
  eventId : String
  eventName : String
  startDayNumber : Int
  endDayNumber : Int
  dayNumbers : List Int
deriving Repr, DecidableEq

/-- Translation of `findEventDaysForDates(eventId, startDate, endDate)`
(scheduler_v2.js lines 3278-3327): the event must exist and have day
records; the start and end dates are matched against the sorted day
records (in the JS, a day number of 0 would also fail the falsy check
`!startDayNumber`, but generated day numbers start at 1). -/
def findEventDaysForDates (st : AppState) (eventId : String)
    (startDate endDate : Int) : Option DayMatch :=
  match st.events.find? (fun e => e.Event_ID == eventId) with
  | none => none
  | some event =>
    let days := sortBy dayNumLe (st.eventDays.filter (fun d => d.Event_ID == eventId))
    if days.isEmpty then none
    else
      match (days.find? (fun d => d.Day_Date == startDate)).map EventDay.Day_Number,
            (days.find? (fun d => d.Day_Date == endDate)).map EventDay.Day_Number with
      | some s, some e2 =>
        some { eventId := eventId, eventName := event.Event, startDayNumber := s,
               endDayNumber := e2, dayNumbers := intRangeIncl s e2 }
      | _, _ => none

/-- The event loop of `findEventForDateRange` (scheduler_v2.js lines
3217-3275): the first event whose day range encloses the dates and
yields day numbers for both endpoints wins; otherwise the loop
continues. -/
def findEventForDateRangeGo (st : AppState) (startDate endDate : Int) :
    List EventRec → Option DayMatch
  | [] => none
  | event :: rest =>
    let days := sortBy dayNumLe
      (st.eventDays.filter (fun d => d.Event_ID == event.Event_ID))
    match days.head?, days.getLast? with
    | some dFirst, some dLast =>
      if dFirst.Day_Date ≤ startDate && endDate ≤ dLast.Day_Date then
        match (days.find? (fun d => d.Day_Date == startDate)).map EventDay.Day_Number,
              (days.find? (fun d => d.Day_Date == endDate)).map EventDay.Day_Number with
        | some s, some e2 =>
          some { eventId := event.Event_ID, eventName := event.Event,
                 startDayNumber := s, endDayNumber := e2,
                 dayNumbers := intRangeIncl s e2 }
        | _, _ => findEventForDateRangeGo st startDate endDate rest
      else findEventForDateRangeGo st startDate endDate rest
    | _, _ => findEventForDateRangeGo st startDate endDate rest

/-- Translation of `findEventForDateRange(startDate, endDate)` (legacy
auto-detect mode of the schedule import). -/
def findEventForDateRange (st : AppState) (startDate endDate : Int) : Option DayMatch :=
  findEventForDateRangeGo st startDate endDate st.events

/-- One row of the schedule-import CSV
(`Course_ID,Duration_Days,First_Day,Last_Day,Event_ID,Room_Number`).
The dates are modelled as already parsed (`none` stands for a string the
JS `Date` parser rejects, i.e. the `isNaN(getTime())` branch);
`Event_ID = none` models a missing or empty column (the falsy
`row.Event_ID && row.Event_ID.trim()` check) and `Room_Number = none`
an empty room column. -/
structure ScheduleRow where
  Course_ID : String
  Duration_Days : String
  First_Day : Option Int
  Last_Day : Option Int
  Event_ID : Option String
  Room_Number : Option Int
deriving Repr, DecidableEq

/-- Per-row outcome of `importSchedule`: the error rows pushed to
`errors` and the success record pushed to `imported`. -/
inductive RowOutcome where
  | courseNotFound
  | invalidDate
  | eventNotFound
  | datesDontMatchEvent
  | noEventMatch
  | invalidRoom
  | imported (eventId : String) (startDay endDay : Int) (days : List Int)
      (room : Option Int)
deriving Repr, DecidableEq

/-- The `scheduleData.forEach` body of `importSchedule` (scheduler_v2.js
lines 3030-3181): validate the course id, the dates, the event match
and the room range, then write the assignment and the (non-draft)
placement.  No instructor-availability or room-occupancy check is
performed on this path. -/
def importRow (st : AppState) (row : ScheduleRow) : AppState × RowOutcome :=
  if !(st.courses.any (fun c => c.Course_ID == row.Course_ID)) then
    (st, .courseNotFound)
  else
    match row.First_Day, row.Last_Day with
    | some startDate, some endDate =>
      let commit (m : DayMatch) (room : Option Int) : AppState × RowOutcome :=
        let p : Placement :=
          { startDay := some m.startDayNumber, days := m.dayNumbers,
            roomNumber := room, isDraft := false }
        ({ st with
            assignments := assignAdd st.assignments row.Course_ID m.eventId,
            schedule := schedSet st.schedule m.eventId row.Course_ID p },
         .imported m.eventId m.startDayNumber m.endDayNumber m.dayNumbers room)
      let withMatch (m : DayMatch) : AppState × RowOutcome :=
        match row.Room_Number with
        | some roomNumber =>
          if roomNumber < 1 || roomNumber > roomCountOf st m.eventId then
            (st, .invalidRoom)
          else commit m (some roomNumber)
        | none => commit m none
      match row.Event_ID with
      | some eventId =>
        if !(st.events.any (fun e => e.Event_ID == eventId)) then (st, .eventNotFound)
        else
          match findEventDaysForDates st eventId startDate endDate with
          | none => (st, .datesDontMatchEvent)
          | some m => withMatch m
      | none =>
        match findEventForDateRange st startDate endDate with
        | none => (st, .noEventMatch)
        | some m => withMatch m
    | _, _ => (st, .invalidDate)

/-- The room-configuration pre-scan of `importSchedule` (scheduler_v2.js
lines 3009-3028): true when some row carries a room number above the
event's configured room count. -/
def roomConfigWarningsExist (st : AppState) (rows : List ScheduleRow) : Bool :=
  rows.any (fun row =>
    match row.Event_ID, row.Room_Number with
    | some e, some r => r > roomCountOf st e
    | _, _ => false)

/-- Translation of `importSchedule(scheduleData, fileName)`
(scheduler_v2.js lines 3000-3181): after the room-configuration confirm
gate, process the rows in order, collecting per-row outcomes. -/
def importSchedule (st : AppState) (rows : List ScheduleRow) (confirmAnyway : Bool) :
    AppState × List RowOutcome :=
  if roomConfigWarningsExist st rows && !confirmAnyway then (st, [])
  else
    rows.foldl
      (fun acc row =>
        let r := importRow acc.1 row
        (r.1, acc.2 ++ [r.2]))
      (st, [])

/-- The committed effect of one import row, separated from the state
threading: `none` when the row is rejected for any reason, otherwise
the `((eventId, courseId), placement)` entry that `importRow` writes.
Only the static catalogue fields (`courses`, `events`, `eventDays`,
`eventRooms`) of the state are consulted, never `schedule` or
`assignments`; the lemma `importRow_state` ties it to `importRow`. -/
def rowAction (st : AppState) (row : ScheduleRow) :
    Option ((String × String) × Placement) :=
  if !(st.courses.any (fun c => c.Course_ID == row.Course_ID)) then none
  else
    match row.First_Day, row.Last_Day with
    | some startDate, some endDate =>
      let withMatch (m : DayMatch) : Option ((String × String) × Placement) :=
        match row.Room_Number with
        | some roomNumber =>
          if roomNumber < 1 || roomNumber > roomCountOf st m.eventId then none
          else some ((m.eventId, row.Course_ID),
            { startDay := some m.startDayNumber, days := m.dayNumbers,
              roomNumber := some roomNumber, isDraft := false })
        | none => some ((m.eventId, row.Course_ID),
            { startDay := some m.startDayNumber, days := m.dayNumbers,
              roomNumber := none, isDraft := false })
      match row.Event_ID with
      | some eventId =>
        if !(st.events.any (fun e => e.Event_ID == eventId)) then none
        else
          match findEventDaysForDates st eventId startDate endDate with
          | none => none
          | some m => withMatch m
      | none =>
        match findEventForDateRange st startDate endDate with
        | none => none
        | some m => withMatch m
    | _, _ => none

/-- Models `placement.roomNumber || ''` in the export: `null` and the
falsy room 0 both export as an empty column. -/
def jsFalsyRoom (x : Option Int) : Option Int :=
  match x with
  | some r => if r == 0 then none else some r
  | none => none

/-- Comparator of the export's `.sort` (event id, then course id; the
JS uses `localeCompare`, modelled as lexicographic string order). -/
def exportRowLe (a b : ScheduleRow) : Bool :=
  let ea := a.Event_ID.getD ""
  let eb := b.Event_ID.getD ""
  decide (ea < eb) || (ea == eb && decide (a.Course_ID ≤ b.Course_ID))

/-- Translation of `exportScheduleWithRooms()` (scheduler_v2.js lines
2704-2783): one row per placement with a non-empty `days` list and a
known course; the first/last dates are the `Day_Date` of the smallest
and largest day number (via the event's unsorted day records); the
export carries no draft flag.  Placements with `days = []` and courses
missing from the course list are skipped. -/
def exportScheduleWithRooms (st : AppState) : List ScheduleRow :=
  let scheduledEntries := st.events.flatMap (fun event =>
    (eventEntries st.schedule event.Event_ID).filterMap (fun ec =>
      if !ec.2.days.isEmpty then
        match st.courses.find? (fun c => c.Course_ID == ec.1) with
        | none => none
        | some course =>
          let sortedDays := sortBy (fun a b : Int => a ≤ b) ec.2.days
          let firstDayNum := sortedDays.head?.getD 0
          let lastDayNum := sortedDays.getLast?.getD 0
          let days := st.eventDays.filter (fun d => d.Event_ID == event.Event_ID)
          let firstDate := (days.find? (fun d => d.Day_Number == firstDayNum)).map
            EventDay.Day_Date
          let lastDate := (days.find? (fun d => d.Day_Number == lastDayNum)).map
            EventDay.Day_Date
          some { Course_ID := ec.1, Duration_Days := course.Duration_Days,
                 First_Day := firstDate, Last_Day := lastDate,
                 Event_ID := some event.Event_ID,
                 Room_Number := jsFalsyRoom ec.2.roomNumber }
      else none))
  sortBy exportRowLe scheduledEntries

/-- The export row generated for one store entry `(c, p)` of event `e`
with course record `course` (the body of the export's `filterMap`,
factored out for the round-trip analysis). -/
def exportRowOf (st : AppState) (e c : String) (p : Placement) (course : Course) :
    ScheduleRow :=
  let sortedDays := sortBy (fun a b : Int => a ≤ b) p.days
  let firstDayNum := sortedDays.head?.getD 0
  let lastDayNum := sortedDays.getLast?.getD 0
  let days := st.eventDays.filter (fun d => d.Event_ID == e)
  { Course_ID := c, Duration_Days := course.Duration_Days,
    First_Day := (days.find? (fun d => d.Day_Number == firstDayNum)).map
      EventDay.Day_Date,
    Last_Day := (days.find? (fun d => d.Day_Number == lastDayNum)).map
      EventDay.Day_Date,
    Event_ID := some e, Room_Number := jsFalsyRoom p.roomNumber }

/-- A raw date cell of the consolidated dates CSV: `missing` is a falsy
(absent or empty) cell that fails the required-field check, `invalid` a
non-empty string the `Date` parser rejects, `valid d` a parsed date. -/
inductive RawDate where
  | missing
  | invalid
  | valid (d : Int)
deriving Repr, DecidableEq

/-- One row of the consolidated dates CSV consumed by
`processConsolidatedDates`.  `Room_Count`/`Total_Days` are `none` when
the cell is absent, empty or non-numeric. -/
structure DatesRow where
  Event_ID : String
  Event : String
  Room_Count : Option Int
  First_Event_Day : RawDate
  Last_Event_Day : RawDate
  Total_Days : Option Int
deriving Repr, DecidableEq

/-- The output of calendar expansion: the rebuilt `events`, `eventDays`
and `eventRooms` arrays, plus the ids of the rows skipped (each one
`console.warn`ed in the JS). -/
structure CalendarResult where
  events : List EventRec
  eventDays : List EventDay
  eventRooms : List (String × Int)
  skipped : List String
deriving Repr, DecidableEq

/-- The day-generation while-loop bounded by the end date and the
total day count in `processConsolidatedDates` (scheduler_v2.js lines
740-753). -/
def genDaysFrom (eventId eventName : String) (endDate totalDays currentDate dayNumber : Int) :
    List EventDay :=
  if currentDate ≤ endDate ∧ dayNumber ≤ totalDays then
    { Event_ID := eventId, Event_Name := eventName, Day_Number := dayNumber,
      Day_Date := currentDate }
      :: genDaysFrom eventId eventName endDate totalDays (currentDate + 1) (dayNumber + 1)
  else []
termination_by (totalDays + 1 - dayNumber).toNat
decreasing_by simp_wf; omega

/-- The `datesData.forEach` body of `processConsolidatedDates`
(scheduler_v2.js lines 664-754): record the room count (first
occurrence wins), skip the row when a required field is missing or a
date fails to parse (the skip is reported via `console.warn`), and
otherwise append the event record and its generated day records. -/
def processDatesRow (acc : CalendarResult) (row : DatesRow) : CalendarResult :=
  let eventId := row.Event_ID
  let eventName := row.Event
  let roomCount :=
    match row.Room_Count with
    | some p => if p > 0 then p else 1
    | none => 1
  let eventRooms :=
    if (acc.eventRooms.find? (fun kv => kv.1 == eventId)).isSome then acc.eventRooms
    else acc.eventRooms ++ [(eventId, roomCount)]
  if eventId == "" || eventName == "" || row.First_Event_Day == RawDate.missing ||
      row.Last_Event_Day == RawDate.missing then
    { acc with eventRooms := eventRooms, skipped := acc.skipped ++ [eventId] }
  else
    match row.First_Event_Day, row.Last_Event_Day with
    | .valid startDate, .valid endDate =>
      let daysDiff := endDate - startDate + 1
      let totalDays :=
        match row.Total_Days with
        | some t => t
        | none => daysDiff
      let ev : EventRec := { Event_ID := eventId, Event := eventName,
                             Total_Days := totalDays }
      { acc with
          eventRooms := eventRooms,
          events := acc.events ++ [ev],
          eventDays := acc.eventDays ++
            genDaysFrom eventId eventName endDate totalDays startDate 1 }
    | _, _ =>
      { acc with eventRooms := eventRooms, skipped := acc.skipped ++ [eventId] }

/-- Translation of `processConsolidatedDates(datesData)` (scheduler_v2.js
lines 659-757): reset the three arrays, then process every row. -/
def processConsolidatedDates (rows : List DatesRow) : CalendarResult :=
  rows.foldl processDatesRow
    { events := [], eventDays := [], eventRooms := [], skipped := [] }

/-- True exactly on the accepting outcome of the drop handler. -/
def DropResult.isAccepted : DropResult → Bool
  | .accepted _ _ _ => true
  | _ => false

/-- True exactly on the committing outcome of draft promotion. -/
def ApplyDraftResult.isApplied : ApplyDraftResult → Bool
  | .applied _ => true
  | _ => false

/-- Pairwise day-disjointness of two placements. -/
def DisjointDays (p₁ p₂ : Placement) : Prop :=
  ∀ d, d ∈ p₁.days → d ∉ p₂.days

/-- Property P2 of the specification, on the embedded store: two
distinct non-draft placements of the same event in the same room have
disjoint day sets. -/
def NoRoomOverlap (s : Sched) : Prop :=
  ∀ e c₁ c₂ p₁ p₂ r, c₁ ≠ c₂ →
    schedFind? s e c₁ = some p₁ → schedFind? s e c₂ = some p₂ →
    p₁.isDraft = false → p₂.isDraft = false →
    p₁.roomNumber = some r → p₂.roomNumber = some r →
    DisjointDays p₁ p₂

/-- Auxiliary store invariant maintained by every mutator: a placement
with a non-empty day list has a start day (spec section 3: `days` is
empty iff `startDay` is null; only the left-to-right direction is
needed). -/
def StartDayConsistent (s : Sched) : Prop :=
  ∀ k p, (k, p) ∈ s → p.days ≠ [] → p.startDay.isSome

/-- The store invariant carried through operation sequences. -/
def StoreInv (s : Sched) : Prop :=
  StartDayConsistent s ∧ NoRoomOverlap s

/-- The placement-creating and placement-removing user operations other
than bulk import: grid drag-drop, the two room-change entry points,
explicit removal and the assignment checkbox. -/
inductive UserOp where
  | drop (dragged : DraggedBlock) (timelineCourseId timelineEventId : String)
      (totalDays targetDay : Int)
  | changeRoom (eventId courseId : String) (newRoomNumber : Int)
  | selectRoom (eventId courseId : String) (roomNumber : Int)
      (choice : RoomDialogChoice)
  | remove (courseId eventId : String)
  | assignChange (courseId eventId : String) (isChecked : Bool)
deriving Repr, DecidableEq

/-- Applies one user operation to the state. -/
def applyUserOp (st : AppState) : UserOp → AppState
  | .drop dragged tc te td tg => (handleTimelineDropGrid st dragged tc te td tg).1
  | .changeRoom e c r => (changeCourseRoom st e c r).1
  | .selectRoom e c r choice => (selectRoomGrid st e c r choice).1
  | .remove c e => removeCourseFromEvent st c e
  | .assignChange c e b => handleAssignmentChange st c e b

/-- Applies a sequence of user operations in order. -/
def applyUserOps (st : AppState) (ops : List UserOp) : AppState :=
  ops.foldl applyUserOp st


/-- The function `importRow` updates the state exactly as described by `rowAction`:
no change on rejection, one assignment-index addition and one store
write on success. -/
theorem importRow_state (st : AppState) (row : ScheduleRow) :
    (importRow st row).1 =
      match rowAction st row with
      | none => st
      | some kv =>
        { st with assignments := assignAdd st.assignments kv.1.2 kv.1.1,
                  schedule := schedSet st.schedule kv.1.1 kv.1.2 kv.2 } := by
  rw [importRow, rowAction]
  split
  · rfl
  · split
    · rename_i startDate endDate
      dsimp only
      split
      · rename_i eventId
        split
        · rfl
        · split
          · rfl
          · rename_i m
            split
            · rename_i roomNumber
              split
              · rfl
              · rfl
            · rfl
      · split
        · rfl
        · rename_i m
          split
          · rename_i roomNumber
            split
            · rfl
            · rfl
          · rfl
    · rfl

/-! Theorems. -/

/-- C4: for a proposed placement needing `daysNeeded` days in an event
of `totalDays` days, `calculateSnapPosition` rejects (returns `none`)
exactly when the course is longer than the event; otherwise it returns
the proposed start clamped into `[1, totalDays - daysNeeded + 1]` (a low
start raised to 1, a high start lowered to the latest legal start), and
the accepted placement's day list `courseDaysFrom` holds exactly the
`daysNeeded` contiguous days from the clamped start. -/
theorem c4_fit_and_clamp (targetDay daysNeeded totalDays : Int) :
    (daysNeeded > totalDays →
      calculateSnapPosition targetDay daysNeeded totalDays = none) ∧
    (daysNeeded ≤ totalDays →
      calculateSnapPosition targetDay daysNeeded totalDays =
        some (min (max targetDay 1) (totalDays - daysNeeded + 1)) ∧
      1 ≤ min (max targetDay 1) (totalDays - daysNeeded + 1) ∧
      min (max targetDay 1) (totalDays - daysNeeded + 1) ≤ totalDays - daysNeeded + 1 ∧
      (courseDaysFrom (min (max targetDay 1) (totalDays - daysNeeded + 1))
        daysNeeded).length = daysNeeded.toNat ∧
      (∀ d : Int,
        d ∈ courseDaysFrom (min (max targetDay 1) (totalDays - daysNeeded + 1))
          daysNeeded ↔
        min (max targetDay 1) (totalDays - daysNeeded + 1) ≤ d ∧
        d < min (max targetDay 1) (totalDays - daysNeeded + 1) + daysNeeded)) := by
  constructor
  · intro h
    simp only [calculateSnapPosition]
    rw [if_pos h]
  · intro h
    refine ⟨?_, by omega, by omega, ?_, ?_⟩
    · simp only [calculateSnapPosition]
      rw [if_neg (by omega)]
      congr 1
      split <;> split <;> omega
    · rw [courseDaysFrom, List.length_map, List.length_range]
    · intro d
      rw [courseDaysFrom, List.mem_map]
      constructor
      · rintro ⟨i, hi, rfl⟩
        rw [List.mem_range] at hi
        omega
      · rintro ⟨h1, h2⟩
        refine ⟨(d - min (max targetDay 1) (totalDays - daysNeeded + 1)).toNat, ?_, ?_⟩
        · rw [List.mem_range]; omega
        · omega

/-- Witness for C4 at scenario 1 of the specification: a 3-day course
dropped at start day 4 in a 5-day event snaps to start day 3 and
occupies days 3, 4, 5. -/
theorem c4_fit_and_clamp_witness :
    calculateSnapPosition 4 3 5 = some 3 ∧ courseDaysFrom 3 3 = [3, 4, 5] := by
  have h := (c4_fit_and_clamp 4 3 5).2 (by decide)
  refine ⟨?_, by decide⟩
  rw [h.1]
  decide

/-- Closed form of the day-generation loop: starting at `currentDate`
and `dayNumber`, it emits one record per remaining day, bounded by both
the end date and the total-day count. -/
theorem genDaysFrom_eq (eventId eventName : String) (endDate totalDays : Int) :
    ∀ (n : Nat) (currentDate dayNumber : Int),
      (min (endDate + 1 - currentDate) (totalDays + 1 - dayNumber)).toNat = n →
      genDaysFrom eventId eventName endDate totalDays currentDate dayNumber =
        (List.range n).map (fun k : Nat =>
          { Event_ID := eventId, Event_Name := eventName,
            Day_Number := dayNumber + (k : Int), Day_Date := currentDate + (k : Int) }) := by
  intro n
  induction n with
  | zero =>
    intro cd dn h
    rw [genDaysFrom, if_neg (by omega)]
    simp
  | succ m ih =>
    intro cd dn h
    rw [genDaysFrom, if_pos (by omega)]
    rw [ih (cd + 1) (dn + 1) (by omega)]
    rw [List.range_succ_eq_map, List.map_cons, List.map_map]
    refine congrArg₂ List.cons ?_ ?_
    · simp
    · apply List.map_congr_left
      intro k _
      simp only [Function.comp_apply, EventDay.mk.injEq]
      refine ⟨trivial, trivial, by push_cast; ring, by push_cast; ring⟩

/-- C9: a consolidated-dates row with a missing or unparseable first or
last day (or missing id/name) is rejected wholesale: no event record and
no day records are appended for it, and the row is reported in the
skipped list; a row with valid dates appends its event record and day
records numbered 1..N with consecutive calendar dates starting at the
first day, where N is the date span capped by the total-day override. -/
theorem c9_calendar_row (acc : CalendarResult) (row : DatesRow) :
    ((row.Event_ID = "" ∨ row.Event = "" ∨
        row.First_Event_Day = RawDate.missing ∨ row.Last_Event_Day = RawDate.missing ∨
        row.First_Event_Day = RawDate.invalid ∨ row.Last_Event_Day = RawDate.invalid) →
      (processDatesRow acc row).events = acc.events ∧
      (processDatesRow acc row).eventDays = acc.eventDays ∧
      (processDatesRow acc row).skipped = acc.skipped ++ [row.Event_ID]) ∧
    (∀ startDate endDate, row.Event_ID ≠ "" → row.Event ≠ "" →
      row.First_Event_Day = RawDate.valid startDate →
      row.Last_Event_Day = RawDate.valid endDate →
      (processDatesRow acc row).events = acc.events ++
        [{ Event_ID := row.Event_ID, Event := row.Event,
           Total_Days := row.Total_Days.getD (endDate - startDate + 1) }] ∧
      (processDatesRow acc row).eventDays = acc.eventDays ++
        (List.range (min (endDate + 1 - startDate)
            (row.Total_Days.getD (endDate - startDate + 1))).toNat).map
          (fun k : Nat =>
            { Event_ID := row.Event_ID, Event_Name := row.Event,
              Day_Number := 1 + (k : Int), Day_Date := startDate + (k : Int) }) ∧
      (processDatesRow acc row).skipped = acc.skipped) := by
  constructor
  · intro h
    simp only [processDatesRow]
    split
    · exact ⟨rfl, rfl, rfl⟩
    · next hguard =>
      simp only [Bool.or_eq_true, beq_iff_eq, not_or] at hguard
      obtain ⟨⟨⟨hid, hname⟩, hfm⟩, hlm⟩ := hguard
      rcases hF : row.First_Event_Day with _ | _ | d1 <;>
        rcases hL : row.Last_Event_Day with _ | _ | d2 <;>
          first
            | exact absurd hF hfm
            | exact absurd hL hlm
            | exact ⟨rfl, rfl, rfl⟩
            | (rw [hF, hL] at h
               simp only [reduceCtorEq, or_false, false_or] at h
               rcases h with h | h
               · exact absurd h hid
               · exact absurd h hname)
  · intro startDate endDate hid hname hF hL
    have hgen := genDaysFrom_eq row.Event_ID row.Event endDate
      (row.Total_Days.getD (endDate - startDate + 1))
      (min (endDate + 1 - startDate)
        (row.Total_Days.getD (endDate - startDate + 1))).toNat
      startDate 1 (by omega)
    simp only [processDatesRow]
    rw [if_neg (by simp [hid, hname, hF, hL])]
    rw [hF, hL]
    rcases hT : row.Total_Days with _ | t
    · simp only [hT, Option.getD_none] at hgen ⊢
      refine ⟨?_, ?_, ?_⟩
      · first | rfl | trivial
      · rw [hgen]
      · first | rfl | trivial
    · simp only [hT, Option.getD_some] at hgen ⊢
      refine ⟨?_, ?_, ?_⟩
      · first | rfl | trivial
      · rw [hgen]
      · first | rfl | trivial

/-- Witness for C9: a row with an invalid last day generates nothing
and is reported, and a valid 3-day row generates days 1, 2, 3. -/
theorem c9_calendar_row_witness :
    (processDatesRow { events := [], eventDays := [], eventRooms := [], skipped := [] }
      { Event_ID := "ATL", Event := "Atlanta", Room_Count := none,
        First_Event_Day := RawDate.valid 100, Last_Event_Day := RawDate.invalid,
        Total_Days := none }).events = [] ∧
    (processDatesRow { events := [], eventDays := [], eventRooms := [], skipped := [] }
      { Event_ID := "ATL", Event := "Atlanta", Room_Count := none,
        First_Event_Day := RawDate.valid 100, Last_Event_Day := RawDate.invalid,
        Total_Days := none }).eventDays = [] ∧
    (processDatesRow { events := [], eventDays := [], eventRooms := [], skipped := [] }
      { Event_ID := "ATL", Event := "Atlanta", Room_Count := none,
        First_Event_Day := RawDate.valid 100, Last_Event_Day := RawDate.valid 102,
        Total_Days := none }).eventDays =
      [{ Event_ID := "ATL", Event_Name := "Atlanta", Day_Number := 1, Day_Date := 100 },
       { Event_ID := "ATL", Event_Name := "Atlanta", Day_Number := 2, Day_Date := 101 },
       { Event_ID := "ATL", Event_Name := "Atlanta", Day_Number := 3, Day_Date := 102 }] := by
  have h1 := (c9_calendar_row
    { events := [], eventDays := [], eventRooms := [], skipped := [] }
    { Event_ID := "ATL", Event := "Atlanta", Room_Count := none,
      First_Event_Day := RawDate.valid 100, Last_Event_Day := RawDate.invalid,
      Total_Days := none }).1 (by simp)
  have h2 := (c9_calendar_row
    { events := [], eventDays := [], eventRooms := [], skipped := [] }
    { Event_ID := "ATL", Event := "Atlanta", Room_Count := none,
      First_Event_Day := RawDate.valid 100, Last_Event_Day := RawDate.valid 102,
      Total_Days := none }).2 100 102 (by decide) (by decide) rfl rfl
  refine ⟨h1.1, h1.2.1, ?_⟩
  rw [h2.2.1]
  decide

/-- Removing a draft candidate touches only `draftLists`, never the
schedule or the assignments. -/
theorem removeDraftCourse_preserves (st : AppState) (u : String) (i : Nat) :
    (removeDraftCourse st u i).schedule = st.schedule ∧
    (removeDraftCourse st u i).assignments = st.assignments := by
  unfold removeDraftCourse
  repeat' first
    | exact ⟨rfl, rfl⟩
    | split
    | dsimp only

/-- C10: whenever the grid drop handler or draft promotion refuses a
proposal (for any of their rejection reasons), the schedule map and the
assignments index are exactly as before the call: every validation
check completes before any mutation of those structures. -/
theorem c10_rejections_atomic
    (st : AppState) (dragged : DraggedBlock) (tc te : String) (td tg : Int)
    (u : String) (i : Nat) :
    ((handleTimelineDropGrid st dragged tc te td tg).2.isAccepted = false →
      (handleTimelineDropGrid st dragged tc te td tg).1.schedule = st.schedule ∧
      (handleTimelineDropGrid st dragged tc te td tg).1.assignments = st.assignments) ∧
    ((applyDraftCourse st u i).2.isApplied = false →
      (applyDraftCourse st u i).1.schedule = st.schedule ∧
      (applyDraftCourse st u i).1.assignments = st.assignments) := by
  constructor
  · rw [handleTimelineDropGrid]
    repeat' first
      | exact fun _ => ⟨rfl, rfl⟩
      | split
      | dsimp only
      | (intro h; simp only [DropResult.isAccepted] at h; exact Bool.noConfusion h)
  · rw [applyDraftCourse]
    repeat' first
      | exact fun _ => ⟨rfl, rfl⟩
      | exact fun _ => removeDraftCourse_preserves st u i
      | split
      | dsimp only
      | (intro h; simp only [ApplyDraftResult.isApplied] at h; exact Bool.noConfusion h)

/-- Witness for C10: with no drag payload match (empty state, mismatched
ids) and an empty draft list, both calls refuse and leave the schedule
and assignments untouched. -/
theorem c10_rejections_atomic_witness :
    ((handleTimelineDropGrid
        { courses := [], events := [], eventDays := [], eventRooms := [],
          lockedEvents := ["E1"], unavailabilityMap := [], schedule := [],
          assignments := [], draftLists := [] }
        { courseId := "C1", eventId := "E1", daysNeeded := 1 } "C1" "E1" 5 1).2.isAccepted
      = false) ∧
    ((handleTimelineDropGrid
        { courses := [], events := [], eventDays := [], eventRooms := [],
          lockedEvents := ["E1"], unavailabilityMap := [], schedule := [],
          assignments := [], draftLists := [] }
        { courseId := "C1", eventId := "E1", daysNeeded := 1 } "C1" "E1" 5 1).1.schedule
      = []) := by
  have h := (c10_rejections_atomic
    { courses := [], events := [], eventDays := [], eventRooms := [],
      lockedEvents := ["E1"], unavailabilityMap := [], schedule := [],
      assignments := [], draftLists := [] }
    { courseId := "C1", eventId := "E1", daysNeeded := 1 } "C1" "E1" 5 1 "u" 0).1
    (by decide)
  exact ⟨by decide, h.1⟩

/-! Association-list lemmas shared by the remaining claims. -/

/-- A `find?` over a prefix returning `none` passes through an append. -/
theorem find?_append_of_none {α : Type} {p : α → Bool} {l₁ : List α}
    (h : l₁.find? p = none) (l₂ : List α) :
    (l₁ ++ l₂).find? p = l₂.find? p := by
  induction l₁ with
  | nil => rfl
  | cons x xs ih =>
    by_cases hx : p x = true
    · rw [List.find?_cons_of_pos _ hx] at h
      cases h
    · rw [List.find?_cons_of_neg _ hx] at h
      rw [List.cons_append, List.find?_cons_of_neg _ hx]
      exact ih h

/-- A trailing element that fails the predicate does not change `find?`. -/
theorem find?_append_singleton_of_neg {α : Type} {p : α → Bool} {x : α}
    (hx : ¬p x = true) (l : List α) :
    (l ++ [x]).find? p = l.find? p := by
  induction l with
  | nil => simp [List.find?, hx]
  | cons y ys ih =>
    by_cases hy : p y = true
    · rw [List.cons_append, List.find?_cons_of_pos _ hy, List.find?_cons_of_pos _ hy]
    · rw [List.cons_append, List.find?_cons_of_neg _ hy, List.find?_cons_of_neg _ hy, ih]

/-- Filtering by a predicate implied by the search predicate does not
change `find?`. -/
theorem find?_filter_of_imp {α : Type} {p q : α → Bool} {l : List α}
    (h : ∀ a, p a = true → q a = true) :
    (l.filter q).find? p = l.find? p := by
  induction l with
  | nil => rfl
  | cons x xs ih =>
    by_cases hq : q x = true
    · rw [List.filter_cons_of_pos hq]
      by_cases hp : p x = true
      · rw [List.find?_cons_of_pos _ hp, List.find?_cons_of_pos _ hp]
      · rw [List.find?_cons_of_neg _ hp, List.find?_cons_of_neg _ hp, ih]
    · have hp : ¬p x = true := fun hp => hq (h x hp)
      rw [List.filter_cons_of_neg hq, List.find?_cons_of_neg _ hp, ih]

/-- Looking up the key just written returns the written placement. -/
theorem schedFind?_schedSet_self (s : Sched) (e c : String) (p : Placement) :
    schedFind? (schedSet s e c p) e c = some p := by
  unfold schedFind? schedSet
  rw [find?_append_of_none]
  · simp [List.find?]
  · rw [List.find?_eq_none]
    intro a ha
    rw [List.mem_filter] at ha
    intro hkey
    rw [hkey] at ha
    exact absurd ha.2 (by decide)

/-- Writing one key leaves every other key's lookup unchanged. -/
theorem schedFind?_schedSet_other (s : Sched) (e c : String) (p : Placement)
    {e' c' : String} (h : ¬(e' = e ∧ c' = c)) :
    schedFind? (schedSet s e c p) e' c' = schedFind? s e' c' := by
  unfold schedFind? schedSet
  rw [find?_append_singleton_of_neg, find?_filter_of_imp]
  · intro a ha
    simp only [Bool.and_eq_true, beq_iff_eq] at ha
    simp only [Bool.not_eq_true', Bool.and_eq_false_iff, beq_eq_false_iff_ne, ne_eq]
    by_cases he : a.1.1 = e
    · right
      intro hc
      exact h ⟨ha.1 ▸ he, ha.2 ▸ hc⟩
    · left
      exact he
  · intro hx
    simp only [Bool.and_eq_true, beq_iff_eq] at hx
    exact h ⟨hx.1.symm, hx.2.symm⟩

/-- Deleting a key makes its lookup `none`. -/
theorem schedFind?_schedErase_self (s : Sched) (e c : String) :
    schedFind? (schedErase s e c) e c = none := by
  unfold schedFind? schedErase
  rw [List.find?_eq_none.2]
  · rfl
  · intro a ha
    rw [List.mem_filter] at ha
    intro hkey
    rw [hkey] at ha
    exact absurd ha.2 (by decide)

/-- Deleting one key leaves every other key's lookup unchanged. -/
theorem schedFind?_schedErase_other (s : Sched) (e c : String)
    {e' c' : String} (h : ¬(e' = e ∧ c' = c)) :
    schedFind? (schedErase s e c) e' c' = schedFind? s e' c' := by
  unfold schedFind? schedErase
  rw [find?_filter_of_imp]
  intro a ha
  simp only [Bool.and_eq_true, beq_iff_eq] at ha
  simp only [Bool.not_eq_true', Bool.and_eq_false_iff, beq_eq_false_iff_ne, ne_eq]
  by_cases he : a.1.1 = e
  · right
    intro hc
    exact h ⟨ha.1 ▸ he, ha.2 ▸ hc⟩
  · left
    exact he

/-- A successful lookup exhibits a member of the store. -/
theorem mem_of_schedFind? {s : Sched} {e c : String} {p : Placement}
    (h : schedFind? s e c = some p) : ((e, c), p) ∈ s := by
  unfold schedFind? at h
  cases hf : s.find? (fun kv => kv.1.1 == e && kv.1.2 == c) with
  | none => rw [hf] at h; cases h
  | some kv =>
    rw [hf] at h
    have hkey := List.find?_some hf
    have hmem := List.mem_of_find?_eq_some hf
    simp only [Bool.and_eq_true, beq_iff_eq] at hkey
    simp only [Option.map_some', Option.some.injEq] at h
    have : kv = ((e, c), p) := by
      obtain ⟨⟨k1, k2⟩, v⟩ := kv
      simp only at hkey h
      rw [hkey.1, hkey.2, h]
    rw [this] at hmem
    exact hmem

/-- A successful lookup exhibits an entry of the event's iteration list. -/
theorem mem_eventEntries_of_schedFind? {s : Sched} {e c : String} {p : Placement}
    (h : schedFind? s e c = some p) : (c, p) ∈ eventEntries s e := by
  have hm := mem_of_schedFind? h
  unfold eventEntries
  rw [List.mem_map]
  refine ⟨((e, c), p), ?_, rfl⟩
  rw [List.mem_filter]
  exact ⟨hm, by simp⟩

/-- An empty conflict list means no other same-room placement of the
event overlaps the proposed days — draft or not. -/
theorem roomConflictNames_eq_nil {st : AppState} {e c : String} {room : Int}
    {days : List Int} (h : roomConflictNames st e c room days = []) :
    ∀ c' p', (c', p') ∈ eventEntries st.schedule e → c' ≠ c →
      p'.roomNumber = some room → ∀ d ∈ days, d ∉ p'.days := by
  intro c' p' hmem hne hroom d hd hdp
  have hin : courseNameOr st.courses c' ∈ roomConflictNames st e c room days := by
    unfold roomConflictNames
    rw [List.mem_filterMap]
    refine ⟨(c', p'), hmem, ?_⟩
    rw [if_neg (by simpa using hne), if_pos]
    simp only [Bool.and_eq_true, beq_iff_eq]
    refine ⟨hroom, ?_⟩
    rw [List.any_eq_true]
    exact ⟨d, hd, by simpa using hdp⟩
  rw [h] at hin
  cases hin

/-- Conversely, an overlapping other same-room placement forces a
non-empty conflict list. -/
theorem roomConflictNames_ne_nil {st : AppState} {e c : String} {room : Int}
    {days : List Int} {c' : String} {p' : Placement}
    (hmem : (c', p') ∈ eventEntries st.schedule e) (hne : c' ≠ c)
    (hroom : p'.roomNumber = some room) {d : Int} (hd : d ∈ days)
    (hdp : d ∈ p'.days) :
    roomConflictNames st e c room days ≠ [] := by
  intro h
  exact roomConflictNames_eq_nil h c' p' hmem hne hroom d hd hdp

/-- Characterization of an assignment removal: only the removed
course's list changes, by filtering out the event. -/
theorem assignedEvents_assignRemove (a : List (String × List String))
    (c' e' c : String) :
    assignedEvents (assignRemove a c' e') c =
      if c = c' then (assignedEvents a c).filter (fun id => id != e')
      else assignedEvents a c := by
  unfold assignedEvents assignRemove
  rw [List.find?_map]
  have hcomp : ((fun kv : String × List String => kv.1 == c) ∘
      (fun kv : String × List String =>
        if kv.1 == c' then (kv.1, kv.2.filter (fun id => id != e')) else kv)) =
      fun kv : String × List String => kv.1 == c := by
    funext kv
    by_cases h : kv.1 = c' <;> simp [h]
  rw [hcomp]
  cases hf : a.find? (fun kv => kv.1 == c) with
  | none => by_cases h : c = c' <;> simp [h]
  | some kv =>
    have hk := List.find?_some hf
    simp only [beq_iff_eq] at hk
    by_cases h : c = c'
    · subst h
      simp [hk]
    · have hkc : kv.1 ≠ c' := by rw [hk]; exact h
      simp [hkc, h]

/-- After removing an event from a course's assignment list, the event
is absent. -/
theorem not_mem_assignRemove_self (a : List (String × List String)) (c e : String) :
    e ∉ assignedEvents (assignRemove a c e) c := by
  rw [assignedEvents_assignRemove, if_pos rfl]
  intro h
  rw [List.mem_filter] at h
  exact absurd h.2 (by simp)

/-- Assignment removal never adds an event to any list. -/
theorem assignedEvents_assignRemove_subset {a : List (String × List String)}
    {c' e' c x : String} (h : x ∈ assignedEvents (assignRemove a c' e') c) :
    x ∈ assignedEvents a c := by
  rw [assignedEvents_assignRemove] at h
  by_cases hc : c = c'
  · rw [if_pos hc] at h
    exact (List.mem_filter.1 h).1
  · rwa [if_neg hc] at h

/-- Absence of an event from a course's list survives a fold of
removals of that event. -/
theorem not_mem_foldl_assignRemove_pres {e : String} :
    ∀ (l : List String) (a : List (String × List String)) (c : String),
      e ∉ assignedEvents a c →
      e ∉ assignedEvents (l.foldl (fun a c' => assignRemove a c' e) a) c := by
  intro l
  induction l with
  | nil => exact fun a c h => h
  | cons x xs ih =>
    intro a c h
    rw [List.foldl_cons]
    apply ih
    intro hx
    exact h (assignedEvents_assignRemove_subset hx)

/-- Folding removals of an event over a course list removes the event
from every listed course. -/
theorem not_mem_foldl_assignRemove {e : String} :
    ∀ (l : List String) (a : List (String × List String)) (c : String), c ∈ l →
      e ∉ assignedEvents (l.foldl (fun a c' => assignRemove a c' e) a) c := by
  intro l
  induction l with
  | nil => intro a c h; cases h
  | cons x xs ih =>
    intro a c h
    rw [List.foldl_cons]
    rcases List.mem_cons.1 h with rfl | h
    · exact not_mem_foldl_assignRemove_pres xs _ c (not_mem_assignRemove_self a c e)
    · exact ih _ _ h

/-- C3 counterexample: reducing the room count of "ATL" from 3 to 1
while "C003" sits in room 2, with confirmation, *deletes* the placement
(lookup yields `none`, not a record with `room = null, days = []`) and
removes "ATL" from "C003"'s Assignment-index entry, contrary to the
claim. -/
theorem c3_room_shrink_counterexample :
    schedFind? (editRoomCount
      { courses := [{ Course_ID := "C003", Instructor := "I3", Course_Name := "Course3",
                      Duration_Days := "1" }],
        events := [], eventDays := [], eventRooms := [("ATL", 3)], lockedEvents := [],
        unavailabilityMap := [],
        schedule := [(("ATL", "C003"),
          { startDay := some 1, days := [1], roomNumber := some 2, isDraft := false })],
        assignments := [("C003", ["ATL"])], draftLists := [] }
      "ATL" 3 (some 1) true).1.schedule "ATL" "C003" = none ∧
    assignedEvents (editRoomCount
      { courses := [{ Course_ID := "C003", Instructor := "I3", Course_Name := "Course3",
                      Duration_Days := "1" }],
        events := [], eventDays := [], eventRooms := [("ATL", 3)], lockedEvents := [],
        unavailabilityMap := [],
        schedule := [(("ATL", "C003"),
          { startDay := some 1, days := [1], roomNumber := some 2, isDraft := false })],
        assignments := [("C003", ["ATL"])], draftLists := [] }
      "ATL" 3 (some 1) true).1.assignments "C003" = [] := by
  constructor <;> decide

/-- C3 amended: when the reduction displaces placements, the user is
warned with the affected-course list (cancelling leaves the state
untouched), and after confirmation each affected placement is *deleted*
from the schedule and the event is *removed* from that course's
Assignment-index entry. -/
theorem c3_room_shrink_amended (st : AppState) (e : String) (currentCount n : Int)
    (hlock : st.lockedEvents.contains e = false)
    (h1 : 1 ≤ n) (hlt : n < currentCount)
    (haff : ¬affectedByRoomReduction st e n = []) :
    (editRoomCount st e currentCount (some n) false =
      (st, .cancelled (affectedByRoomReduction st e n))) ∧
    (editRoomCount st e currentCount (some n) true).2 =
      .applied (affectedByRoomReduction st e n) ∧
    (∀ c p, schedFind? st.schedule e c = some p → p.roomNumber.getD 0 > n →
      (∀ q, ((e, c), q) ∈ st.schedule → q.roomNumber.getD 0 > n) →
      schedFind? (editRoomCount st e currentCount (some n) true).1.schedule e c = none ∧
      e ∉ assignedEvents (editRoomCount st e currentCount (some n) true).1.assignments c) := by
  have hne : ¬(n == currentCount) = true := by simp only [beq_iff_eq]; omega
  have hlock2 : ¬st.lockedEvents.contains e = true := by rw [hlock]; simp
  have hie : ¬(affectedByRoomReduction st e n).isEmpty = true := by
    rw [List.isEmpty_iff]
    exact haff
  have hcancel : editRoomCount st e currentCount (some n) false =
      (st, .cancelled (affectedByRoomReduction st e n)) := by
    simp only [editRoomCount]
    rw [if_neg hlock2, if_neg (by omega : ¬n < 1), if_neg hne, if_pos hlt,
      if_neg hie, if_pos (by decide)]
  have happly : editRoomCount st e currentCount (some n) true =
      ({ st with
          schedule := st.schedule.filter (fun kv =>
            !(kv.1.1 == e && kv.2.roomNumber.getD 0 > n)),
          assignments := ((eventEntries st.schedule e).filterMap (fun ec =>
              if ec.2.roomNumber.getD 0 > n then some ec.1 else none)).foldl
            (fun a c => assignRemove a c e) st.assignments,
          eventRooms := roomsSet st.eventRooms e n },
       .applied (affectedByRoomReduction st e n)) := by
    simp only [editRoomCount]
    rw [if_neg hlock2, if_neg (by omega : ¬n < 1), if_neg hne, if_pos hlt,
      if_neg hie, if_neg (by decide)]
  refine ⟨hcancel, ?_, ?_⟩
  · rw [happly]
  · intro c p hfind hp hall
    rw [happly]
    constructor
    · unfold schedFind?
      rw [List.find?_eq_none.2]
      · rfl
      · intro a ha hkey
        rw [List.mem_filter] at ha
        simp only [Bool.and_eq_true, beq_iff_eq] at hkey
        have hmem : ((e, c), a.2) ∈ st.schedule := by
          have : a = ((e, c), a.2) := by
            obtain ⟨⟨k1, k2⟩, v⟩ := a
            simp only at hkey ⊢
            rw [hkey.1, hkey.2]
          rw [← this]
          exact ha.1
        have := hall a.2 hmem
        have hcontra := ha.2
        rw [Bool.not_eq_true', Bool.and_eq_false_iff] at hcontra
        rcases hcontra with hc | hc
        · rw [beq_eq_false_iff_ne] at hc
          exact hc hkey.1
        · simp only [decide_eq_false_iff_not] at hc
          exact hc this
    · apply not_mem_foldl_assignRemove
      rw [List.mem_filterMap]
      refine ⟨(c, p), mem_eventEntries_of_schedFind? hfind, ?_⟩
      rw [if_pos hp]

/-- Witness for C3's amended theorem at the counterexample state. -/
theorem c3_room_shrink_amended_witness :
    (editRoomCount
      { courses := [{ Course_ID := "C003", Instructor := "I3", Course_Name := "Course3",
                      Duration_Days := "1" }],
        events := [], eventDays := [], eventRooms := [("ATL", 3)], lockedEvents := [],
        unavailabilityMap := [],
        schedule := [(("ATL", "C003"),
          { startDay := some 1, days := [1], roomNumber := some 2, isDraft := false })],
        assignments := [("C003", ["ATL"])], draftLists := [] }
      "ATL" 3 (some 1) true).2 =
      RoomCountResult.applied [("Course3", 2)] := by
  have h := (c3_room_shrink_amended
    { courses := [{ Course_ID := "C003", Instructor := "I3", Course_Name := "Course3",
                    Duration_Days := "1" }],
      events := [], eventDays := [], eventRooms := [("ATL", 3)], lockedEvents := [],
      unavailabilityMap := [],
      schedule := [(("ATL", "C003"),
        { startDay := some 1, days := [1], roomNumber := some 2, isDraft := false })],
      assignments := [("C003", ["ATL"])], draftLists := [] }
    "ATL" 3 1 (by decide) (by decide) (by decide) (by decide)).2.1
  rw [h]
  decide

/-- C2 counterexample: the only placement overlapping the proposal is a
draft ("C1" in room 1 on days 1-3, `isDraft = true`), yet the drop of
"C2" (room 1, day 2) is rejected with a room conflict naming it — the
room-conflict check does not skip drafts. -/
theorem c2_drafts_block_counterexample :
    schedFind?
      [(("E", "C1"), { startDay := some 1, days := [1, 2, 3], roomNumber := some 1,
                       isDraft := true : Placement }),
       (("E", "C2"), { startDay := none, days := [], roomNumber := some 1,
                       isDraft := false })] "E" "C1" =
      some { startDay := some 1, days := [1, 2, 3], roomNumber := some 1,
             isDraft := true } ∧
    (handleTimelineDropGrid
      { courses := [{ Course_ID := "C1", Instructor := "A", Course_Name := "CourseOne",
                      Duration_Days := "3" },
                    { Course_ID := "C2", Instructor := "B", Course_Name := "CourseTwo",
                      Duration_Days := "1" }],
        events := [], eventDays := [], eventRooms := [("E", 2)], lockedEvents := [],
        unavailabilityMap := [],
        schedule := [(("E", "C1"),
            { startDay := some 1, days := [1, 2, 3], roomNumber := some 1,
              isDraft := true }),
          (("E", "C2"),
            { startDay := none, days := [], roomNumber := some 1, isDraft := false })],
        assignments := [], draftLists := [] }
      { courseId := "C2", eventId := "E", daysNeeded := 1 } "C2" "E" 5 2).2 =
      DropResult.roomConflict ["CourseOne"] := by
  constructor <;> decide

/-- C2 amended: the room-conflict check of the grid drop handler
considers every other placement of the event in the requested room,
regardless of its draft flag: whenever any other same-room placement
(draft or not) overlaps the proposed days — and the earlier gates pass —
the proposal is rejected with a room conflict. -/
theorem c2_conflict_ignores_draft_flag (st : AppState) (dragged : DraggedBlock)
    (td tg s : Int) (pc p' : Placement) (c' : String) (room : Int)
    (hlock : st.lockedEvents.contains dragged.eventId = false)
    (hsnap : calculateSnapPosition tg dragged.daysNeeded td = some s)
    (hinstr : ∀ d ∈ courseDaysFrom s dragged.daysNeeded,
      d ∉ getBlockedDays st (instructorOf st dragged.courseId) dragged.eventId)
    (hcur : schedFind? st.schedule dragged.eventId dragged.courseId = some pc)
    (hroom : pc.roomNumber = some room)
    (hother : schedFind? st.schedule dragged.eventId c' = some p')
    (hne : c' ≠ dragged.courseId)
    (hor : p'.roomNumber = some room)
    (hoverlap : ∃ d, d ∈ courseDaysFrom s dragged.daysNeeded ∧ d ∈ p'.days) :
    (handleTimelineDropGrid st dragged dragged.courseId dragged.eventId td tg).2 =
      DropResult.roomConflict (roomConflictNames st dragged.eventId dragged.courseId
        room (courseDaysFrom s dragged.daysNeeded)) ∧
    roomConflictNames st dragged.eventId dragged.courseId room
      (courseDaysFrom s dragged.daysNeeded) ≠ [] := by
  obtain ⟨d, hd, hdp⟩ := hoverlap
  have hmem := mem_eventEntries_of_schedFind? hother
  have hnn := roomConflictNames_ne_nil hmem hne hor hd hdp
  have hnotany : ¬((courseDaysFrom s dragged.daysNeeded).any (fun d =>
      (getBlockedDays st (instructorOf st dragged.courseId)
        dragged.eventId).contains d) = true) := by
    intro hany
    rw [List.any_eq_true] at hany
    obtain ⟨d0, hd0, hc0⟩ := hany
    exact hinstr d0 hd0 (by simpa using hc0)
  have hnotempty : ¬((roomConflictNames st dragged.eventId dragged.courseId room
      (courseDaysFrom s dragged.daysNeeded)).isEmpty = true) := by
    rw [List.isEmpty_iff]
    exact hnn
  refine ⟨?_, hnn⟩
  rw [handleTimelineDropGrid]
  rw [if_neg (by rw [hlock]; simp)]
  rw [if_neg (by simp)]
  rw [hsnap]
  dsimp only
  rw [if_neg hnotany, hcur]
  dsimp only
  rw [if_neg (by simp [hroom]), hroom]
  simp only [Option.getD_some]
  rw [if_neg hnotempty]

/-- Witness for C2's amended theorem, at the counterexample state. -/
theorem c2_conflict_ignores_draft_flag_witness :
    (handleTimelineDropGrid
      { courses := [{ Course_ID := "C1", Instructor := "A", Course_Name := "CourseOne",
                      Duration_Days := "3" },
                    { Course_ID := "C2", Instructor := "B", Course_Name := "CourseTwo",
                      Duration_Days := "1" }],
        events := [], eventDays := [], eventRooms := [("E", 2)], lockedEvents := [],
        unavailabilityMap := [],
        schedule := [(("E", "C1"),
            { startDay := some 1, days := [1, 2, 3], roomNumber := some 1,
              isDraft := true }),
          (("E", "C2"),
            { startDay := none, days := [], roomNumber := some 1, isDraft := false })],
        assignments := [], draftLists := [] }
      { courseId := "C2", eventId := "E", daysNeeded := 1 } "C2" "E" 5 2).2 =
      DropResult.roomConflict (roomConflictNames
        { courses := [{ Course_ID := "C1", Instructor := "A", Course_Name := "CourseOne",
                        Duration_Days := "3" },
                      { Course_ID := "C2", Instructor := "B", Course_Name := "CourseTwo",
                        Duration_Days := "1" }],
          events := [], eventDays := [], eventRooms := [("E", 2)], lockedEvents := [],
          unavailabilityMap := [],
          schedule := [(("E", "C1"),
              { startDay := some 1, days := [1, 2, 3], roomNumber := some 1,
                isDraft := true }),
            (("E", "C2"),
              { startDay := none, days := [], roomNumber := some 1, isDraft := false })],
          assignments := [], draftLists := [] }
        "E" "C2" 1 (courseDaysFrom 2 1)) := by
  exact (c2_conflict_ignores_draft_flag _
    { courseId := "C2", eventId := "E", daysNeeded := 1 } 5 2 2
    { startDay := none, days := [], roomNumber := some 1, isDraft := false }
    { startDay := some 1, days := [1, 2, 3], roomNumber := some 1, isDraft := true }
    "C1" 1 (by decide) (by decide) (by decide) (by decide) (by decide) (by decide)
    (by decide) (by decide) ⟨2, by decide, by decide⟩).1

/-- Inversion of an accepted grid drop: the gates that were passed and
the exact store written. -/
theorem drop_accepted_inv {st st' : AppState} {dragged : DraggedBlock} {tc te : String}
    {td tg s : Int} {ds : List Int} {room : Int}
    (h : handleTimelineDropGrid st dragged tc te td tg = (st', .accepted s ds room)) :
    tc = dragged.courseId ∧ te = dragged.eventId ∧
    calculateSnapPosition tg dragged.daysNeeded td = some s ∧
    ds = courseDaysFrom s dragged.daysNeeded ∧
    (∀ d ∈ ds, d ∉ getBlockedDays st (instructorOf st tc) te) ∧
    roomConflictNames st dragged.eventId dragged.courseId room ds = [] ∧
    st' = { st with
            schedule := schedSet st.schedule dragged.eventId dragged.courseId
              (Placement.mk (some s) ds (some room) false) } := by
  rw [handleTimelineDropGrid] at h
  split at h
  · exact absurd h (by simp)
  · rename_i hlockneg
    split at h
    · exact absurd h (by simp)
    · rename_i hmis
      simp only [Bool.not_eq_true', Bool.not_eq_false, Bool.and_eq_true, beq_iff_eq]
        at hmis
      obtain ⟨htc, hte⟩ := hmis
      split at h
      · exact absurd h (by simp)
      · rename_i snapDay hsnap
        dsimp only at h
        split at h
        · exact absurd h (by simp)
        · rename_i hinstr
          split at h
          · exact absurd h (by simp)
          · rename_i hnoroom
            split at h
            · rename_i hempty
              rw [Prod.mk.injEq] at h
              obtain ⟨hst, hacc⟩ := h
              injection hacc with h1 h2 h3
              subst h1
              subst h2
              subst h3
              subst htc
              subst hte
              refine ⟨rfl, rfl, hsnap, rfl, ?_, ?_, hst.symm⟩
              · intro d hd hmem
                apply hinstr
                rw [List.any_eq_true]
                exact ⟨d, hd, by simpa using hmem⟩
              · rwa [List.isEmpty_iff] at hempty
            · exact absurd h (by simp)

/-- Inversion of a committed draft promotion: the gates that were
passed and the exact store written. -/
theorem applyDraft_applied_inv {st st' : AppState} {u : String} {i : Nat}
    {ds : List Int}
    (h : applyDraftCourse st u i = (st', .applied ds)) :
    ∃ item course,
      (draftListOf st u).get? i = some item ∧
      st.lockedEvents.contains item.eventId = false ∧
      item.duration ≤ item.endDay - item.startDay + 1 ∧
      st.courses.find? (fun c => c.Course_ID == item.courseId) = some course ∧
      ds = courseDaysFrom item.startDay item.duration ∧
      (∀ d ∈ ds, d ∉ getBlockedDays st course.Instructor item.eventId) ∧
      st' = removeDraftCourse
        { st with
            assignments := assignAdd st.assignments item.courseId item.eventId,
            schedule := schedSet st.schedule item.eventId item.courseId
              (Placement.mk (some item.startDay) ds (some item.roomNumber) false) }
        u i := by
  rw [applyDraftCourse] at h
  split at h
  · exact absurd h (by simp)
  · rename_i item hitem
    split at h
    · exact absurd h (by simp)
    · rename_i hlock
      dsimp only at h
      split at h
      · exact absurd h (by simp)
      · rename_i hfit
        split at h
        · exact absurd h (by simp)
        · rename_i hsched
          split at h
          · exact absurd h (by simp)
          · rename_i course hcourse
            split at h
            · exact absurd h (by simp)
            · rename_i hblocked
              rw [Prod.mk.injEq] at h
              obtain ⟨hst, hds⟩ := h
              injection hds with hds
              subst hds
              refine ⟨item, course, hitem, by simpa using hlock, by omega,
                hcourse, rfl, ?_, hst.symm⟩
              intro d hd hmem
              apply hblocked
              rw [List.any_eq_true]
              exact ⟨d, hd, by simpa using hmem⟩

/-- C5 counterexample: the bulk-import path performs no instructor
check.  Instructor "A" is blocked on day 1 of event "E", yet importing a
row for "A"'s course across days 1-2 commits a non-draft placement whose
days contain the blocked day 1. -/
theorem c5_import_ignores_blocked_counterexample :
    instructorOf
      { courses := [{ Course_ID := "C1", Instructor := "A", Course_Name := "N",
                      Duration_Days := "2" }],
        events := [{ Event_ID := "E", Event := "Ev", Total_Days := 2 }],
        eventDays := [{ Event_ID := "E", Event_Name := "Ev", Day_Number := 1,
                        Day_Date := 100 },
                      { Event_ID := "E", Event_Name := "Ev", Day_Number := 2,
                        Day_Date := 101 }],
        eventRooms := [("E", 1)], lockedEvents := [],
        unavailabilityMap := [(("A", "E"), [1])],
        schedule := [], assignments := [], draftLists := [] } "C1" = "A" ∧
    getBlockedDays
      { courses := [{ Course_ID := "C1", Instructor := "A", Course_Name := "N",
                      Duration_Days := "2" }],
        events := [{ Event_ID := "E", Event := "Ev", Total_Days := 2 }],
        eventDays := [{ Event_ID := "E", Event_Name := "Ev", Day_Number := 1,
                        Day_Date := 100 },
                      { Event_ID := "E", Event_Name := "Ev", Day_Number := 2,
                        Day_Date := 101 }],
        eventRooms := [("E", 1)], lockedEvents := [],
        unavailabilityMap := [(("A", "E"), [1])],
        schedule := [], assignments := [], draftLists := [] } "A" "E" = [1] ∧
    schedFind? (importSchedule
      { courses := [{ Course_ID := "C1", Instructor := "A", Course_Name := "N",
                      Duration_Days := "2" }],
        events := [{ Event_ID := "E", Event := "Ev", Total_Days := 2 }],
        eventDays := [{ Event_ID := "E", Event_Name := "Ev", Day_Number := 1,
                        Day_Date := 100 },
                      { Event_ID := "E", Event_Name := "Ev", Day_Number := 2,
                        Day_Date := 101 }],
        eventRooms := [("E", 1)], lockedEvents := [],
        unavailabilityMap := [(("A", "E"), [1])],
        schedule := [], assignments := [], draftLists := [] }
      [{ Course_ID := "C1", Duration_Days := "2", First_Day := some 100,
         Last_Day := some 101, Event_ID := some "E", Room_Number := some 1 }]
      true).1.schedule "E" "C1" =
      some (Placement.mk (some 1) [1, 2] (some 1) false) ∧
    (1 : Int) ∈ ([1, 2] : List Int) := by
  refine ⟨by decide, by decide, by decide, by decide⟩

/-- C5 amended: the drag-drop and draft-promotion accepting paths never
commit a placement whose days intersect the instructor's blocked days;
the bulk-import path (see the counterexample) performs no such check. -/
theorem c5_accepted_respects_blocked
    (st st' st2 st2' : AppState) (dragged : DraggedBlock) (tc te : String)
    (td tg s : Int) (ds : List Int) (room : Int) (u : String) (i : Nat)
    (ds2 : List Int) :
    (handleTimelineDropGrid st dragged tc te td tg = (st', .accepted s ds room) →
      ∀ d ∈ ds, d ∉ getBlockedDays st (instructorOf st tc) te) ∧
    (applyDraftCourse st2 u i = (st2', .applied ds2) →
      ∃ item course,
        (draftListOf st2 u).get? i = some item ∧
        st2.courses.find? (fun c => c.Course_ID == item.courseId) = some course ∧
        schedFind? st2'.schedule item.eventId item.courseId =
          some (Placement.mk (some item.startDay) ds2 (some item.roomNumber) false) ∧
        ∀ d ∈ ds2, d ∉ getBlockedDays st2 course.Instructor item.eventId) := by
  constructor
  · intro h
    exact (drop_accepted_inv h).2.2.2.2.1
  · intro h
    obtain ⟨item, course, hitem, -, -, hcourse, hds, hblocked, hst⟩ :=
      applyDraft_applied_inv h
    refine ⟨item, course, hitem, hcourse, ?_, hblocked⟩
    rw [hst, (removeDraftCourse_preserves _ u i).1]
    exact schedFind?_schedSet_self _ _ _ _

/-- Witness for C5's amended theorem: a 2-day drop accepted on an
unconstrained event yields days avoiding the (empty) blocked set. -/
theorem c5_accepted_respects_blocked_witness :
    (1 : Int) ∉ getBlockedDays
      { courses := [{ Course_ID := "C1", Instructor := "A", Course_Name := "N",
                      Duration_Days := "2" }],
        events := [], eventDays := [], eventRooms := [], lockedEvents := [],
        unavailabilityMap := [], schedule := [], assignments := [],
        draftLists := [] }
      (instructorOf
        { courses := [{ Course_ID := "C1", Instructor := "A", Course_Name := "N",
                        Duration_Days := "2" }],
          events := [], eventDays := [], eventRooms := [], lockedEvents := [],
          unavailabilityMap := [], schedule := [], assignments := [],
          draftLists := [] } "C1") "E" := by
  refine (c5_accepted_respects_blocked
    { courses := [{ Course_ID := "C1", Instructor := "A", Course_Name := "N",
                    Duration_Days := "2" }],
      events := [], eventDays := [], eventRooms := [], lockedEvents := [],
      unavailabilityMap := [], schedule := [], assignments := [], draftLists := [] }
    { courses := [{ Course_ID := "C1", Instructor := "A", Course_Name := "N",
                    Duration_Days := "2" }],
      events := [], eventDays := [], eventRooms := [], lockedEvents := [],
      unavailabilityMap := [],
      schedule := [(("E", "C1"), Placement.mk (some 1) [1, 2] (some 1) false)],
      assignments := [], draftLists := [] }
    { courses := [], events := [], eventDays := [], eventRooms := [],
      lockedEvents := [], unavailabilityMap := [], schedule := [],
      assignments := [], draftLists := [] }
    { courses := [], events := [], eventDays := [], eventRooms := [],
      lockedEvents := [], unavailabilityMap := [], schedule := [],
      assignments := [], draftLists := [] }
    { courseId := "C1", eventId := "E", daysNeeded := 2 } "C1" "E" 5 1 1 [1, 2] 1
    "u" 0 []).1 (by decide) 1 (by decide)

/-- Writing a key in the shared if-any-map-else-append pattern makes
its lookup return the written value. -/
theorem find?_keyset_self {α : Type} (a : List (String × α)) (u : String) (x : α) :
    (((if a.any (fun kv => kv.1 == u) then
        a.map (fun kv => if kv.1 == u then (kv.1, x) else kv)
      else a ++ [(u, x)]).find? (fun kv => kv.1 == u)).map Prod.snd) = some x := by
  by_cases h : a.any (fun kv => kv.1 == u) = true
  · rw [if_pos h]
    rw [List.find?_map]
    have hcomp : ((fun kv : String × α => kv.1 == u) ∘
        (fun kv : String × α => if kv.1 == u then (kv.1, x) else kv)) =
        fun kv : String × α => kv.1 == u := by
      funext kv
      by_cases hk : kv.1 = u <;> simp [hk]
    rw [hcomp]
    rw [List.any_eq_true] at h
    obtain ⟨kv, hmem, hkv⟩ := h
    cases hf : a.find? (fun kv => kv.1 == u) with
    | none =>
      rw [List.find?_eq_none] at hf
      exact absurd hkv (hf _ hmem)
    | some kv' =>
      have hk' := List.find?_some hf
      simp only [beq_iff_eq] at hk'
      simp [hk']
  · rw [if_neg h]
    rw [find?_append_of_none]
    · simp [List.find?]
    · rw [List.find?_eq_none]
      intro kv hmem hkv
      rw [List.any_eq_true] at h
      exact h ⟨kv, hmem, hkv⟩

/-- Setting a course's assignment list and reading it back. -/
theorem assignedEvents_assignSet_self (a : List (String × List String))
    (c : String) (l : List String) :
    assignedEvents (assignSet a c l) c = l := by
  unfold assignedEvents assignSet
  rw [find?_keyset_self]
  rfl

/-- The helper `assignAdd` leaves the event present in the course's list. -/
theorem mem_assignAdd_self (a : List (String × List String)) (c e : String) :
    e ∈ assignedEvents (assignAdd a c e) c := by
  simp only [assignAdd]
  by_cases h : (assignedEvents a c).contains e = true
  · rw [if_pos h, assignedEvents_assignSet_self]
    simpa using h
  · rw [if_neg h, assignedEvents_assignSet_self]
    exact List.mem_append_right _ (by simp)

/-- Setting a slot's draft list and reading it back through any state
holding the written lists. -/
theorem draftListOf_draftListsSet (a : List (String × List DraftItem)) (u : String)
    (l : List DraftItem) (st : AppState) (h : st.draftLists = draftListsSet a u l) :
    draftListOf st u = l := by
  unfold draftListOf
  rw [h]
  unfold draftListsSet
  rw [find?_keyset_self]
  rfl

/-- Removing candidate `i` of slot `u` erases exactly that index from
the slot's list (when the indexed item's event is not locked). -/
theorem removeDraftCourse_draftListOf (st : AppState) (u : String) (i : Nat)
    (item : DraftItem) (hitem : (draftListOf st u).get? i = some item)
    (hlock : st.lockedEvents.contains item.eventId = false) :
    draftListOf (removeDraftCourse st u i) u = (draftListOf st u).eraseIdx i := by
  rw [removeDraftCourse]
  cases hf : st.draftLists.find? (fun kv => kv.1 == u) with
  | none =>
    exfalso
    unfold draftListOf at hitem
    rw [hf] at hitem
    simp at hitem
  | some kv =>
    dsimp only
    rw [hitem]
    dsimp only
    rw [if_neg (by rw [hlock]; simp)]
    exact draftListOf_draftListsSet st.draftLists u _ _ rfl

/-- C6 counterexample: room 1 of event "E" is already occupied on days
1-2 by the non-draft course "D1", yet promoting the pending candidate
for "C1" into exactly that slot is *not* rejected: it commits a second
non-draft placement on the same room and days, and a second pending
list ("u2") referencing "C1" keeps its candidate. -/
theorem c6_promotion_counterexample :
    (applyDraftCourse
      { courses := [{ Course_ID := "C1", Instructor := "A", Course_Name := "N",
                      Duration_Days := "2" }],
        events := [], eventDays := [], eventRooms := [("E", 1)], lockedEvents := [],
        unavailabilityMap := [],
        schedule := [(("E", "D1"), Placement.mk (some 1) [1, 2] (some 1) false)],
        assignments := [],
        draftLists := [("u", [{ courseId := "C1", courseName := "N", instructor := "A",
                                duration := 2, eventId := "E", roomNumber := 1,
                                startDay := 1, endDay := 2 }]),
                       ("u2", [{ courseId := "C1", courseName := "N", instructor := "A",
                                 duration := 2, eventId := "E", roomNumber := 1,
                                 startDay := 1, endDay := 2 }])] }
      "u" 0).2 = ApplyDraftResult.applied [1, 2] ∧
    schedFind? (applyDraftCourse
      { courses := [{ Course_ID := "C1", Instructor := "A", Course_Name := "N",
                      Duration_Days := "2" }],
        events := [], eventDays := [], eventRooms := [("E", 1)], lockedEvents := [],
        unavailabilityMap := [],
        schedule := [(("E", "D1"), Placement.mk (some 1) [1, 2] (some 1) false)],
        assignments := [],
        draftLists := [("u", [{ courseId := "C1", courseName := "N", instructor := "A",
                                duration := 2, eventId := "E", roomNumber := 1,
                                startDay := 1, endDay := 2 }]),
                       ("u2", [{ courseId := "C1", courseName := "N", instructor := "A",
                                 duration := 2, eventId := "E", roomNumber := 1,
                                 startDay := 1, endDay := 2 }])] }
      "u" 0).1.schedule "E" "D1" = some (Placement.mk (some 1) [1, 2] (some 1) false) ∧
    schedFind? (applyDraftCourse
      { courses := [{ Course_ID := "C1", Instructor := "A", Course_Name := "N",
                      Duration_Days := "2" }],
        events := [], eventDays := [], eventRooms := [("E", 1)], lockedEvents := [],
        unavailabilityMap := [],
        schedule := [(("E", "D1"), Placement.mk (some 1) [1, 2] (some 1) false)],
        assignments := [],
        draftLists := [("u", [{ courseId := "C1", courseName := "N", instructor := "A",
                                duration := 2, eventId := "E", roomNumber := 1,
                                startDay := 1, endDay := 2 }]),
                       ("u2", [{ courseId := "C1", courseName := "N", instructor := "A",
                                 duration := 2, eventId := "E", roomNumber := 1,
                                 startDay := 1, endDay := 2 }])] }
      "u" 0).1.schedule "E" "C1" = some (Placement.mk (some 1) [1, 2] (some 1) false) ∧
    draftListOf (applyDraftCourse
      { courses := [{ Course_ID := "C1", Instructor := "A", Course_Name := "N",
                      Duration_Days := "2" }],
        events := [], eventDays := [], eventRooms := [("E", 1)], lockedEvents := [],
        unavailabilityMap := [],
        schedule := [(("E", "D1"), Placement.mk (some 1) [1, 2] (some 1) false)],
        assignments := [],
        draftLists := [("u", [{ courseId := "C1", courseName := "N", instructor := "A",
                                duration := 2, eventId := "E", roomNumber := 1,
                                startDay := 1, endDay := 2 }]),
                       ("u2", [{ courseId := "C1", courseName := "N", instructor := "A",
                                 duration := 2, eventId := "E", roomNumber := 1,
                                 startDay := 1, endDay := 2 }])] }
      "u" 0).1 "u2" =
      [{ courseId := "C1", courseName := "N", instructor := "A", duration := 2,
         eventId := "E", roomNumber := 1, startDay := 1, endDay := 2 }] := by
  refine ⟨by decide, by decide, by decide, by decide⟩

/-- C6 amended: promotion re-validates only the slot length, the
already-scheduled state and the instructor's blocked days — not room
occupancy.  When those checks pass it commits a non-draft placement,
adds the event to the course's assignments, and removes the candidate
from the invoked slot's pending list only. -/
theorem c6_promotion_amended (st : AppState) (u : String) (i : Nat)
    (item : DraftItem) (course : Course)
    (hitem : (draftListOf st u).get? i = some item)
    (hlock : st.lockedEvents.contains item.eventId = false)
    (hfit : item.duration ≤ item.endDay - item.startDay + 1)
    (hsched : ∀ p, schedFind? st.schedule item.eventId item.courseId = some p →
      p.days = [])
    (hcourse : st.courses.find? (fun c => c.Course_ID == item.courseId) = some course)
    (hinstr : ∀ d ∈ courseDaysFrom item.startDay item.duration,
      d ∉ getBlockedDays st course.Instructor item.eventId) :
    (applyDraftCourse st u i).2 =
      ApplyDraftResult.applied (courseDaysFrom item.startDay item.duration) ∧
    schedFind? (applyDraftCourse st u i).1.schedule item.eventId item.courseId =
      some (Placement.mk (some item.startDay)
        (courseDaysFrom item.startDay item.duration) (some item.roomNumber) false) ∧
    item.eventId ∈ assignedEvents (applyDraftCourse st u i).1.assignments
      item.courseId ∧
    draftListOf (applyDraftCourse st u i).1 u = (draftListOf st u).eraseIdx i := by
  have hnotalready : ¬((match schedFind? st.schedule item.eventId item.courseId with
      | some p => !p.days.isEmpty
      | none => false) = true) := by
    cases hp : schedFind? st.schedule item.eventId item.courseId with
    | none => simp
    | some p =>
      have := hsched p hp
      simp [this]
  have hnotblocked : ¬((courseDaysFrom item.startDay item.duration).any (fun d =>
      (getBlockedDays st course.Instructor item.eventId).contains d) = true) := by
    intro hany
    rw [List.any_eq_true] at hany
    obtain ⟨d, hd, hc⟩ := hany
    exact hinstr d hd (by simpa using hc)
  have hrun : applyDraftCourse st u i =
      (removeDraftCourse
        { st with
            assignments := assignAdd st.assignments item.courseId item.eventId,
            schedule := schedSet st.schedule item.eventId item.courseId
              (Placement.mk (some item.startDay)
                (courseDaysFrom item.startDay item.duration)
                (some item.roomNumber) false) } u i,
       ApplyDraftResult.applied (courseDaysFrom item.startDay item.duration)) := by
    rw [applyDraftCourse, hitem]
    dsimp only
    rw [if_neg (by rw [hlock]; simp)]
    rw [if_neg (by omega)]
    rw [if_neg hnotalready]
    rw [hcourse]
    dsimp only
    rw [if_neg hnotblocked]
  rw [hrun]
  refine ⟨rfl, ?_, ?_, ?_⟩
  · rw [(removeDraftCourse_preserves _ u i).1]
    exact schedFind?_schedSet_self _ _ _ _
  · rw [(removeDraftCourse_preserves _ u i).2]
    exact mem_assignAdd_self _ _ _
  · exact removeDraftCourse_draftListOf _ u i item hitem hlock

/-- Witness for C6's amended theorem: a candidate promoted into a free
slot commits, assigns and clears its own pending list. -/
theorem c6_promotion_amended_witness :
    (applyDraftCourse
      { courses := [{ Course_ID := "C1", Instructor := "A", Course_Name := "N",
                      Duration_Days := "1" }],
        events := [], eventDays := [], eventRooms := [("E", 1)], lockedEvents := [],
        unavailabilityMap := [], schedule := [], assignments := [],
        draftLists := [("u", [{ courseId := "C1", courseName := "N", instructor := "A",
                                duration := 1, eventId := "E", roomNumber := 1,
                                startDay := 1, endDay := 1 }])] }
      "u" 0).2 = ApplyDraftResult.applied (courseDaysFrom 1 1) := by
  exact (c6_promotion_amended
    { courses := [{ Course_ID := "C1", Instructor := "A", Course_Name := "N",
                    Duration_Days := "1" }],
      events := [], eventDays := [], eventRooms := [("E", 1)], lockedEvents := [],
      unavailabilityMap := [], schedule := [], assignments := [],
      draftLists := [("u", [{ courseId := "C1", courseName := "N", instructor := "A",
                              duration := 1, eventId := "E", roomNumber := 1,
                              startDay := 1, endDay := 1 }])] }
    "u" 0
    { courseId := "C1", courseName := "N", instructor := "A", duration := 1,
      eventId := "E", roomNumber := 1, startDay := 1, endDay := 1 }
    { Course_ID := "C1", Instructor := "A", Course_Name := "N", Duration_Days := "1" }
    (by decide) (by decide) (by decide)
    (by intro p hp; exact Option.noConfusion hp)
    (by decide) (by intro d hd; exact List.not_mem_nil d)).1

/-- A committed import write at one key either is the looked-up key
(then the assignment was added) or leaves the lookup unchanged. -/
theorem importRow_commit_case {st : AppState} {ev cc : String} {pl : Placement}
    {e c : String} {p : Placement}
    (h : schedFind? (schedSet st.schedule ev cc pl) e c = some p) :
    schedFind? st.schedule e c = some p ∨
    e ∈ assignedEvents (assignAdd st.assignments cc ev) c := by
  by_cases hkey : e = ev ∧ c = cc
  · obtain ⟨rfl, rfl⟩ := hkey
    exact Or.inr (mem_assignAdd_self _ _ _)
  · rw [schedFind?_schedSet_other st.schedule ev cc pl hkey] at h
    exact Or.inl h

/-- A single import row that leaves a placement at a key either left the
key alone or also listed the event in the course's assignments. -/
theorem importRow_store_implies_assigned {st st' : AppState} {row : ScheduleRow}
    {out : RowOutcome} (hrun : importRow st row = (st', out)) (e c : String)
    (p : Placement) (h : schedFind? st'.schedule e c = some p) :
    schedFind? st.schedule e c = some p ∨ e ∈ assignedEvents st'.assignments c := by
  rw [importRow] at hrun
  repeat' first
    | split at hrun
    | dsimp only at hrun
  all_goals
    rw [Prod.mk.injEq] at hrun
  all_goals
    obtain ⟨hst, -⟩ := hrun
  all_goals
    subst hst
  all_goals
    first
      | exact Or.inl h
      | exact importRow_commit_case h

/-- C8 counterexample: checking a course into an event on the
assignment grid (from the empty state) lists the event in the Assignment
index while the Schedule Store holds no (event, course) entry — the
claimed biconditional fails. -/
theorem c8_index_store_counterexample :
    assignedEvents (handleAssignmentChange
      { courses := [], events := [], eventDays := [], eventRooms := [],
        lockedEvents := [], unavailabilityMap := [], schedule := [],
        assignments := [], draftLists := [] } "C1" "E1" true).assignments "C1" =
      ["E1"] ∧
    schedFind? (handleAssignmentChange
      { courses := [], events := [], eventDays := [], eventRooms := [],
        lockedEvents := [], unavailabilityMap := [], schedule := [],
        assignments := [], draftLists := [] } "C1" "E1" true).schedule "E1" "C1" =
      none := by
  constructor <;> decide

/-- C8 amended: the index and store move in lockstep only where both are
written.  A grid check-in adds the index entry without touching the
store; unchecking removes the pair from both; an import row that leaves
a placement at a key either left the key alone or also listed the event;
and a committed draft promotion writes both. -/
theorem c8_index_store_amended :
    (∀ st c e, e ∈ assignedEvents (handleAssignmentChange st c e true).assignments c ∧
      (handleAssignmentChange st c e true).schedule = st.schedule) ∧
    (∀ st c e, e ∉ assignedEvents (handleAssignmentChange st c e false).assignments c ∧
      schedFind? (handleAssignmentChange st c e false).schedule e c = none) ∧
    (∀ st st' row out e c p, importRow st row = (st', out) →
      schedFind? st'.schedule e c = some p →
      schedFind? st.schedule e c = some p ∨ e ∈ assignedEvents st'.assignments c) ∧
    (∀ st st' u i ds, applyDraftCourse st u i = (st', ApplyDraftResult.applied ds) →
      ∃ item, (draftListOf st u).get? i = some item ∧
        schedFind? st'.schedule item.eventId item.courseId =
          some (Placement.mk (some item.startDay) ds (some item.roomNumber) false) ∧
        item.eventId ∈ assignedEvents st'.assignments item.courseId) := by
  refine ⟨?_, ?_, ?_, ?_⟩
  · intro st c e
    simp only [handleAssignmentChange, if_true]
    constructor
    · by_cases h : (assignedEvents
          (if st.assignments.any (fun kv => kv.1 == c) then st.assignments
           else st.assignments ++ [(c, [])]) c).contains e = true
      · rw [if_pos h]
        simpa using h
      · rw [if_neg h, assignedEvents_assignSet_self]
        exact List.mem_append_right _ (by simp)
    · trivial
  · intro st c e
    simp only [handleAssignmentChange, if_false]
    exact ⟨not_mem_assignRemove_self _ c e, schedFind?_schedErase_self _ e c⟩
  · intro st st' row out e c p hrun h
    exact importRow_store_implies_assigned hrun e c p h
  · intro st st' u i ds h
    obtain ⟨item, course, hitem, -, -, -, -, -, hst⟩ := applyDraft_applied_inv h
    refine ⟨item, hitem, ?_, ?_⟩
    · rw [hst, (removeDraftCourse_preserves _ u i).1]
      exact schedFind?_schedSet_self _ _ _ _
    · rw [hst, (removeDraftCourse_preserves _ u i).2]
      exact mem_assignAdd_self _ _ _

/-- Witness for C8's amended theorem: a concrete import row commits a
placement at ("E","C1"), and the theorem yields that the key was already
occupied or the index lists the event. -/
theorem c8_index_store_amended_witness :
    schedFind?
      ({ courses := [{ Course_ID := "C1", Instructor := "A", Course_Name := "N",
                       Duration_Days := "2" }],
         events := [{ Event_ID := "E", Event := "Ev", Total_Days := 2 }],
         eventDays := [{ Event_ID := "E", Event_Name := "Ev", Day_Number := 1,
                         Day_Date := 100 },
                       { Event_ID := "E", Event_Name := "Ev", Day_Number := 2,
                         Day_Date := 101 }],
         eventRooms := [("E", 1)], lockedEvents := [], unavailabilityMap := [],
         schedule := [], assignments := [], draftLists := [] } : AppState).schedule
      "E" "C1" = some (Placement.mk (some 1) [1, 2] (some 1) false) ∨
    "E" ∈ assignedEvents (importRow
      { courses := [{ Course_ID := "C1", Instructor := "A", Course_Name := "N",
                      Duration_Days := "2" }],
        events := [{ Event_ID := "E", Event := "Ev", Total_Days := 2 }],
        eventDays := [{ Event_ID := "E", Event_Name := "Ev", Day_Number := 1,
                        Day_Date := 100 },
                      { Event_ID := "E", Event_Name := "Ev", Day_Number := 2,
                        Day_Date := 101 }],
        eventRooms := [("E", 1)], lockedEvents := [], unavailabilityMap := [],
        schedule := [], assignments := [], draftLists := [] }
      { Course_ID := "C1", Duration_Days := "2", First_Day := some 100,
        Last_Day := some 101, Event_ID := some "E",
        Room_Number := some 1 }).1.assignments "C1" :=
  c8_index_store_amended.2.2.1
    { courses := [{ Course_ID := "C1", Instructor := "A", Course_Name := "N",
                    Duration_Days := "2" }],
      events := [{ Event_ID := "E", Event := "Ev", Total_Days := 2 }],
      eventDays := [{ Event_ID := "E", Event_Name := "Ev", Day_Number := 1,
                      Day_Date := 100 },
                    { Event_ID := "E", Event_Name := "Ev", Day_Number := 2,
                      Day_Date := 101 }],
      eventRooms := [("E", 1)], lockedEvents := [], unavailabilityMap := [],
      schedule := [], assignments := [], draftLists := [] }
    (importRow
      { courses := [{ Course_ID := "C1", Instructor := "A", Course_Name := "N",
                      Duration_Days := "2" }],
        events := [{ Event_ID := "E", Event := "Ev", Total_Days := 2 }],
        eventDays := [{ Event_ID := "E", Event_Name := "Ev", Day_Number := 1,
                        Day_Date := 100 },
                      { Event_ID := "E", Event_Name := "Ev", Day_Number := 2,
                        Day_Date := 101 }],
        eventRooms := [("E", 1)], lockedEvents := [], unavailabilityMap := [],
        schedule := [], assignments := [], draftLists := [] }
      { Course_ID := "C1", Duration_Days := "2", First_Day := some 100,
        Last_Day := some 101, Event_ID := some "E", Room_Number := some 1 }).1
    { Course_ID := "C1", Duration_Days := "2", First_Day := some 100,
      Last_Day := some 101, Event_ID := some "E", Room_Number := some 1 }
    (importRow
      { courses := [{ Course_ID := "C1", Instructor := "A", Course_Name := "N",
                      Duration_Days := "2" }],
        events := [{ Event_ID := "E", Event := "Ev", Total_Days := 2 }],
        eventDays := [{ Event_ID := "E", Event_Name := "Ev", Day_Number := 1,
                        Day_Date := 100 },
                      { Event_ID := "E", Event_Name := "Ev", Day_Number := 2,
                        Day_Date := 101 }],
        eventRooms := [("E", 1)], lockedEvents := [], unavailabilityMap := [],
        schedule := [], assignments := [], draftLists := [] }
      { Course_ID := "C1", Duration_Days := "2", First_Day := some 100,
        Last_Day := some 101, Event_ID := some "E", Room_Number := some 1 }).2
    "E" "C1" (Placement.mk (some 1) [1, 2] (some 1) false) rfl (by decide)


/-- Any rejection of the grid drop handler leaves the whole state
untouched. -/
theorem drop_not_accepted_state (st : AppState) (dragged : DraggedBlock)
    (tc te : String) (td tg : Int) :
    (handleTimelineDropGrid st dragged tc te td tg).2.isAccepted = false →
    (handleTimelineDropGrid st dragged tc te td tg).1 = st := by
  rw [handleTimelineDropGrid]
  repeat' first
    | exact fun _ => rfl
    | split
    | dsimp only
    | (intro h; simp only [DropResult.isAccepted] at h; exact Bool.noConfusion h)

/-- Lookup in a value-mapped store, for key-preserving maps. -/
theorem schedFind?_map {s : Sched}
    {g : ((String × String) × Placement) → ((String × String) × Placement)}
    (hkey : ∀ kv, (g kv).1 = kv.1) (e c : String) :
    schedFind? (s.map g) e c =
      (s.find? (fun kv => kv.1.1 == e && kv.1.2 == c)).map (fun kv => (g kv).2) := by
  unfold schedFind?
  rw [List.find?_map]
  have hcomp : ((fun kv : (String × String) × Placement =>
      kv.1.1 == e && kv.1.2 == c) ∘ g) =
      fun kv : (String × String) × Placement => kv.1.1 == e && kv.1.2 == c := by
    funext kv
    simp only [Function.comp_apply, hkey kv]
  rw [hcomp]
  cases s.find? (fun kv => kv.1.1 == e && kv.1.2 == c) <;> rfl

/-- Extending a store by one write preserves the invariant, provided
the written placement is day-consistent and, when non-draft and roomed,
disjoint from every other same-room placement of its event. -/
theorem StoreInv_schedSet {s : Sched} {e c : String} {p : Placement}
    (hinv : StoreInv s)
    (hday : p.days ≠ [] → p.startDay.isSome)
    (hover : ∀ c' p' r, c' ≠ c → schedFind? s e c' = some p' →
      p.isDraft = false → p'.isDraft = false →
      p.roomNumber = some r → p'.roomNumber = some r →
      ∀ d, d ∈ p.days → d ∉ p'.days) :
    StoreInv (schedSet s e c p) := by
  obtain ⟨hsd, hnro⟩ := hinv
  constructor
  · intro k q hmem
    unfold schedSet at hmem
    rcases List.mem_append.1 hmem with hm | hm
    · exact hsd k q (List.mem_filter.1 hm).1
    · rcases List.mem_singleton.1 hm with h
      injection h with h1 h2
      subst h2
      exact hday
  · intro e₀ c₁ c₂ p₁ p₂ r hne h₁ h₂ hd₁ hd₂ hr₁ hr₂
    by_cases hk₁ : e₀ = e ∧ c₁ = c
    · obtain ⟨he, hc⟩ := hk₁
      rw [he, hc, schedFind?_schedSet_self] at h₁
      injection h₁ with h₁
      subst h₁
      have hc₂ : c₂ ≠ c := fun hcc => hne (by rw [hc, hcc])
      rw [he, schedFind?_schedSet_other _ _ _ _ (fun hp => hc₂ hp.2)] at h₂
      exact fun d hd => hover c₂ p₂ r hc₂ h₂ hd₁ hd₂ hr₁ hr₂ d hd
    · rw [schedFind?_schedSet_other _ _ _ _ hk₁] at h₁
      by_cases hk₂ : e₀ = e ∧ c₂ = c
      · obtain ⟨he, hc⟩ := hk₂
        rw [he, hc, schedFind?_schedSet_self] at h₂
        injection h₂ with h₂
        subst h₂
        have hc₁ : c₁ ≠ c := fun hcc => hk₁ ⟨he, hcc⟩
        rw [he] at h₁
        intro d hd hdp
        exact hover c₁ p₁ r hc₁ h₁ hd₂ hd₁ hr₂ hr₁ d hdp hd
      · rw [schedFind?_schedSet_other _ _ _ _ hk₂] at h₂
        exact hnro e₀ c₁ c₂ p₁ p₂ r hne h₁ h₂ hd₁ hd₂ hr₁ hr₂

/-- Deleting a key preserves the invariant. -/
theorem StoreInv_schedErase {s : Sched} (e c : String) (hinv : StoreInv s) :
    StoreInv (schedErase s e c) := by
  obtain ⟨hsd, hnro⟩ := hinv
  constructor
  · intro k q hmem
    exact hsd k q (List.mem_filter.1 hmem).1
  · intro e₀ c₁ c₂ p₁ p₂ r hne h₁ h₂ hd₁ hd₂ hr₁ hr₂
    by_cases hk₁ : e₀ = e ∧ c₁ = c
    · obtain ⟨he, hc⟩ := hk₁
      rw [he, hc, schedFind?_schedErase_self] at h₁
      cases h₁
    · rw [schedFind?_schedErase_other _ _ _ hk₁] at h₁
      by_cases hk₂ : e₀ = e ∧ c₂ = c
      · obtain ⟨he, hc⟩ := hk₂
        rw [he, hc, schedFind?_schedErase_self] at h₂
        cases h₂
      · rw [schedFind?_schedErase_other _ _ _ hk₂] at h₂
        exact hnro e₀ c₁ c₂ p₁ p₂ r hne h₁ h₂ hd₁ hd₂ hr₁ hr₂

/-- A key-preserving value map that keeps days and start day, and
leaves every entry that stays non-draft-with-a-room wholly unchanged,
preserves the invariant. -/
theorem StoreInv_map {s : Sched}
    {g : ((String × String) × Placement) → ((String × String) × Placement)}
    (hkey : ∀ kv, (g kv).1 = kv.1)
    (hday : ∀ kv, (g kv).2.days = kv.2.days ∧ (g kv).2.startDay = kv.2.startDay)
    (hsafe : ∀ kv, g kv = kv ∨ (g kv).2.isDraft = true ∨ (g kv).2.roomNumber = none)
    (hinv : StoreInv s) : StoreInv (s.map g) := by
  obtain ⟨hsd, hnro⟩ := hinv
  constructor
  · intro k q hmem
    rw [List.mem_map] at hmem
    obtain ⟨kv, hkv, hg⟩ := hmem
    intro hdays
    have hd := (hday kv).1
    have hs := (hday kv).2
    rw [hg] at hd hs
    rw [hs]
    exact hsd kv.1 kv.2 hkv (by rwa [hd] at hdays)
  · intro e₀ c₁ c₂ p₁ p₂ r hne h₁ h₂ hd₁ hd₂ hr₁ hr₂
    rw [schedFind?_map hkey] at h₁ h₂
    cases hf₁ : s.find? (fun kv => kv.1.1 == e₀ && kv.1.2 == c₁) with
    | none => rw [hf₁] at h₁; cases h₁
    | some kv₁ =>
      rw [hf₁] at h₁
      injection h₁ with h₁
      replace h₁ : (g kv₁).2 = p₁ := h₁
      cases hf₂ : s.find? (fun kv => kv.1.1 == e₀ && kv.1.2 == c₂) with
      | none => rw [hf₂] at h₂; cases h₂
      | some kv₂ =>
        rw [hf₂] at h₂
        injection h₂ with h₂
        replace h₂ : (g kv₂).2 = p₂ := h₂
        have hg₁ : g kv₁ = kv₁ := by
          rcases hsafe kv₁ with h | h | h
          · exact h
          · rw [h₁] at h; rw [hd₁] at h; cases h
          · rw [h₁] at h; rw [hr₁] at h; cases h
        have hg₂ : g kv₂ = kv₂ := by
          rcases hsafe kv₂ with h | h | h
          · exact h
          · rw [h₂] at h; rw [hd₂] at h; cases h
          · rw [h₂] at h; rw [hr₂] at h; cases h
        rw [hg₁] at h₁
        rw [hg₂] at h₂
        have hfind₁ : schedFind? s e₀ c₁ = some p₁ := by
          unfold schedFind?
          rw [hf₁]
          simp only [Option.map_some']
          exact congrArg some h₁
        have hfind₂ : schedFind? s e₀ c₂ = some p₂ := by
          unfold schedFind?
          rw [hf₂]
          simp only [Option.map_some']
          exact congrArg some h₂
        exact hnro e₀ c₁ c₂ p₁ p₂ r hne hfind₁ hfind₂ hd₁ hd₂ hr₁ hr₂

/-- A key-preserving map that fixes the entries of one key leaves that
key's lookup unchanged. -/
theorem schedFind?_map_self_unchanged {s : Sched} {e c : String} {pl : Placement}
    {g : ((String × String) × Placement) → ((String × String) × Placement)}
    (hkey : ∀ kv, (g kv).1 = kv.1)
    (hself : ∀ kv, kv.1.1 = e → kv.1.2 = c → kv.2 = pl → g kv = kv)
    (hpl : schedFind? s e c = some pl) :
    schedFind? (s.map g) e c = some pl := by
  rw [schedFind?_map hkey]
  unfold schedFind? at hpl
  cases hf : s.find? (fun kv => kv.1.1 == e && kv.1.2 == c) with
  | none => rw [hf] at hpl; cases hpl
  | some kv =>
    rw [hf] at hpl
    simp only [Option.map_some', Option.some.injEq] at hpl ⊢
    have hk := List.find?_some hf
    simp only [Bool.and_eq_true, beq_iff_eq] at hk
    rw [hself kv hk.1 hk.2 hpl]
    exact hpl

/-- Inverting a lookup through a key-preserving map. -/
theorem schedFind?_map_inv {s : Sched} {e c' : String} {p' : Placement}
    {g : ((String × String) × Placement) → ((String × String) × Placement)}
    (hkey : ∀ kv, (g kv).1 = kv.1)
    (h : schedFind? (s.map g) e c' = some p') :
    ∃ kv, s.find? (fun kv => kv.1.1 == e && kv.1.2 == c') = some kv ∧
      (g kv).2 = p' ∧ kv.1.1 = e ∧ kv.1.2 = c' := by
  rw [schedFind?_map hkey] at h
  cases hf : s.find? (fun kv => kv.1.1 == e && kv.1.2 == c') with
  | none => rw [hf] at h; cases h
  | some kv =>
    rw [hf] at h
    simp only [Option.map_some', Option.some.injEq] at h
    have hk := List.find?_some hf
    simp only [Bool.and_eq_true, beq_iff_eq] at hk
    exact ⟨kv, rfl, h, hk.1, hk.2⟩

/-- The grid drop handler preserves the store invariant. -/
theorem drop_preserves_StoreInv (st : AppState) (dragged : DraggedBlock)
    (tc te : String) (td tg : Int) (hinv : StoreInv st.schedule) :
    StoreInv (handleTimelineDropGrid st dragged tc te td tg).1.schedule := by
  cases hacc : (handleTimelineDropGrid st dragged tc te td tg).2.isAccepted with
  | false =>
    rw [drop_not_accepted_state _ _ _ _ _ _ hacc]
    exact hinv
  | true =>
    cases hres : (handleTimelineDropGrid st dragged tc te td tg).2 with
    | accepted s ds room =>
      have hrun : handleTimelineDropGrid st dragged tc te td tg =
          ((handleTimelineDropGrid st dragged tc te td tg).1,
           DropResult.accepted s ds room) := by
        rw [← hres]
      obtain ⟨htc, hte, hsnap, hds, hbl, hconf, hst⟩ := drop_accepted_inv hrun
      rw [hst]
      apply StoreInv_schedSet hinv
      · intro _
        rfl
      · intro c' p' r hne hfind hpd hp'd hpr hp'r d hd
        injection hpr with hpr
        subst hpr
        exact roomConflictNames_eq_nil hconf c' p'
          (mem_eventEntries_of_schedFind? hfind) hne hp'r d hd
    | locked => rw [hres] at hacc; cases hacc
    | mismatch => rw [hres] at hacc; cases hacc
    | noSnap => rw [hres] at hacc; cases hacc
    | instructorConflict ds => rw [hres] at hacc; cases hacc
    | noRoom => rw [hres] at hacc; cases hacc
    | roomConflict ns => rw [hres] at hacc; cases hacc

/-- The room-change handler preserves the store invariant. -/
theorem changeRoom_preserves_StoreInv (st : AppState) (e c : String) (r : Int)
    (hinv : StoreInv st.schedule) :
    StoreInv (changeCourseRoom st e c r).1.schedule := by
  rw [changeCourseRoom]
  split
  · exact hinv
  · rename_i pl hpl
    dsimp only
    split
    · rename_i hempty
      dsimp only
      apply StoreInv_schedSet hinv
      · exact hinv.1 _ pl (mem_of_schedFind? hpl)
      · intro c' p' r₀ hne hfind hpd hp'd hpr hp'r d hd
        injection hpr with hpr
        subst hpr
        exact roomConflictNames_eq_nil (by rwa [List.isEmpty_iff] at hempty) c' p'
          (mem_eventEntries_of_schedFind? hfind) hne hp'r d hd
    · exact hinv

/-- Creating a fresh room-only entry preserves the invariant. -/
theorem StoreInv_create_entry (st : AppState) (e c : String) (r : Int)
    (hinv : StoreInv st.schedule) :
    StoreInv (schedSet st.schedule e c (Placement.mk none [] (some r) false)) := by
  apply StoreInv_schedSet hinv
  · intro h
    exact absurd rfl h
  · intro c' p' r₀ hne hfind hpd hp'd hpr hp'r d hd
    cases hd

/-- Clearing an entry's room preserves the invariant. -/
theorem StoreInv_clear_room (st : AppState) (e c : String) {pl : Placement}
    (hpl : schedFind? st.schedule e c = some pl) (hinv : StoreInv st.schedule) :
    StoreInv (schedSet st.schedule e c ({ pl with roomNumber := none })) := by
  apply StoreInv_schedSet hinv
  · exact hinv.1 _ pl (mem_of_schedFind? hpl)
  · intro c' p' r₀ hne hfind hpd hp'd hpr hp'r d hd
    cases hpr

/-- Setting an entry's room preserves the invariant when its days are
empty or conflict-free in the target room. -/
theorem StoreInv_set_room (st : AppState) (e c : String) (r : Int) {pl : Placement}
    (hpl : schedFind? st.schedule e c = some pl)
    (hok : pl.days = [] ∨ roomConflictNames st e c r pl.days = [])
    (hinv : StoreInv st.schedule) :
    StoreInv (schedSet st.schedule e c ({ pl with roomNumber := some r })) := by
  apply StoreInv_schedSet hinv
  · exact hinv.1 _ pl (mem_of_schedFind? hpl)
  · intro c' p' r₀ hne hfind hpd hp'd hpr hp'r d hd
    injection hpr with hpr
    subst hpr
    rcases hok with hok | hok
    · rw [hok] at hd
      cases hd
    · exact roomConflictNames_eq_nil hok c' p'
        (mem_eventEntries_of_schedFind? hfind) hne hp'r d hd

/-- The room-grid selection handler preserves the store invariant, on
every branch (create, deselect, cancel, draft-both, replace, set). -/
theorem selectRoom_preserves_StoreInv (st : AppState) (e c : String) (r : Int)
    (choice : RoomDialogChoice) (hinv : StoreInv st.schedule) :
    StoreInv (selectRoomGrid st e c r choice).1.schedule := by
  have hsetfree : ∀ pl : Placement, schedFind? st.schedule e c = some pl →
      ¬(pl.startDay.isSome && !pl.days.isEmpty) = true →
      StoreInv (schedSet st.schedule e c ({ pl with roomNumber := some r })) := by
    intro pl hpl hhd
    apply StoreInv_set_room st e c r hpl _ hinv
    by_cases hdays : pl.days = []
    · exact Or.inl hdays
    · exfalso
      apply hhd
      have hsd := hinv.1 (e, c) pl (mem_of_schedFind? hpl) hdays
      rw [hsd]
      simp [List.isEmpty_iff, hdays]
  have hdraftinv : ∀ pl : Placement, schedFind? st.schedule e c = some pl →
      ¬(pl.roomNumber == some r) = true →
      StoreInv ((schedSet (st.schedule.map (fun kv =>
        if kv.1.1 == e && kv.2.roomNumber == some r &&
          (pl.days.any (fun d => kv.2.days.contains d) || kv.1.2 == c)
        then (kv.1, { kv.2 with isDraft := true }) else kv)) e c
        (let self := (schedFind? (st.schedule.map (fun kv =>
          if kv.1.1 == e && kv.2.roomNumber == some r &&
            (pl.days.any (fun d => kv.2.days.contains d) || kv.1.2 == c)
          then (kv.1, { kv.2 with isDraft := true }) else kv)) e c).getD pl
         { self with roomNumber := some r, isDraft := true }))) := by
    intro pl hpl hpne
    have hself : schedFind? (st.schedule.map (fun kv =>
        if kv.1.1 == e && kv.2.roomNumber == some r &&
          (pl.days.any (fun d => kv.2.days.contains d) || kv.1.2 == c)
        then (kv.1, { kv.2 with isDraft := true }) else kv)) e c = some pl := by
      apply schedFind?_map_self_unchanged _ _ hpl
      · intro kv
        by_cases hg : (kv.1.1 == e && kv.2.roomNumber == some r &&
            (pl.days.any (fun d => kv.2.days.contains d) || kv.1.2 == c)) = true
        · rw [if_pos hg]
        · rw [if_neg hg]
      · intro kv h1 h2 h3
        have hgneg : ¬(kv.1.1 == e && kv.2.roomNumber == some r &&
            (pl.days.any (fun d => kv.2.days.contains d) || kv.1.2 == c)) = true := by
          intro hg
          simp only [Bool.and_eq_true, beq_iff_eq] at hg
          apply hpne
          rw [← h3]
          simp [hg.1.2]
        rw [if_neg hgneg]
    rw [hself]
    refine StoreInv_schedSet (StoreInv_map ?_ ?_ ?_ hinv) ?_ ?_
    · intro kv
      by_cases hg : (kv.1.1 == e && kv.2.roomNumber == some r &&
          (pl.days.any (fun d => kv.2.days.contains d) || kv.1.2 == c)) = true
      · rw [if_pos hg]
      · rw [if_neg hg]
    · intro kv
      by_cases hg : (kv.1.1 == e && kv.2.roomNumber == some r &&
          (pl.days.any (fun d => kv.2.days.contains d) || kv.1.2 == c)) = true
      · rw [if_pos hg]
        exact ⟨rfl, rfl⟩
      · rw [if_neg hg]
        exact ⟨rfl, rfl⟩
    · intro kv
      by_cases hg : (kv.1.1 == e && kv.2.roomNumber == some r &&
          (pl.days.any (fun d => kv.2.days.contains d) || kv.1.2 == c)) = true
      · rw [if_pos hg]
        right
        left
        rfl
      · rw [if_neg hg]
        left
        rfl
    · exact hinv.1 _ pl (mem_of_schedFind? hpl)
    · intro c' p' r₀ hne hfind hpd hp'd hpr hp'r d hd
      exact absurd hpd (by simp)
  have hreplinv : ∀ pl : Placement, schedFind? st.schedule e c = some pl →
      StoreInv ((schedSet (st.schedule.map (fun kv =>
        if kv.1.1 == e && kv.1.2 != c && kv.2.roomNumber == some r &&
          pl.days.any (fun d => kv.2.days.contains d)
        then (kv.1, { kv.2 with roomNumber := none }) else kv)) e c
        (let self := (schedFind? (st.schedule.map (fun kv =>
          if kv.1.1 == e && kv.1.2 != c && kv.2.roomNumber == some r &&
            pl.days.any (fun d => kv.2.days.contains d)
          then (kv.1, { kv.2 with roomNumber := none }) else kv)) e c).getD pl
         { self with roomNumber := some r }))) := by
    intro pl hpl
    have hkeyfun : ∀ kv : (String × String) × Placement,
        ((if kv.1.1 == e && kv.1.2 != c && kv.2.roomNumber == some r &&
            pl.days.any (fun d => kv.2.days.contains d)
          then (kv.1, { kv.2 with roomNumber := none }) else kv)).1 = kv.1 := by
      intro kv
      by_cases hg : (kv.1.1 == e && kv.1.2 != c && kv.2.roomNumber == some r &&
          pl.days.any (fun d => kv.2.days.contains d)) = true
      · rw [if_pos hg]
      · rw [if_neg hg]
    have hself : schedFind? (st.schedule.map (fun kv =>
        if kv.1.1 == e && kv.1.2 != c && kv.2.roomNumber == some r &&
          pl.days.any (fun d => kv.2.days.contains d)
        then (kv.1, { kv.2 with roomNumber := none }) else kv)) e c = some pl := by
      apply schedFind?_map_self_unchanged hkeyfun _ hpl
      intro kv h1 h2 h3
      have hgneg : ¬(kv.1.1 == e && kv.1.2 != c && kv.2.roomNumber == some r &&
          pl.days.any (fun d => kv.2.days.contains d)) = true := by
        intro hg
        simp only [Bool.and_eq_true, beq_iff_eq, bne_iff_ne, ne_eq] at hg
        exact hg.1.1.2 h2
      rw [if_neg hgneg]
    rw [hself]
    refine StoreInv_schedSet (StoreInv_map hkeyfun ?_ ?_ hinv) ?_ ?_
    · intro kv
      by_cases hg : (kv.1.1 == e && kv.1.2 != c && kv.2.roomNumber == some r &&
          pl.days.any (fun d => kv.2.days.contains d)) = true
      · rw [if_pos hg]
        exact ⟨rfl, rfl⟩
      · rw [if_neg hg]
        exact ⟨rfl, rfl⟩
    · intro kv
      by_cases hg : (kv.1.1 == e && kv.1.2 != c && kv.2.roomNumber == some r &&
          pl.days.any (fun d => kv.2.days.contains d)) = true
      · rw [if_pos hg]
        right
        right
        rfl
      · rw [if_neg hg]
        left
        rfl
    · exact hinv.1 _ pl (mem_of_schedFind? hpl)
    · intro c' p' r₀ hne hfind hpd hp'd hpr hp'r d hd
      injection hpr with hpr
      subst hpr
      obtain ⟨kv', hfkv, hgkv, hke, hkc⟩ := schedFind?_map_inv hkeyfun hfind
      by_cases hg : (kv'.1.1 == e && kv'.1.2 != c && kv'.2.roomNumber == some r &&
          pl.days.any (fun d => kv'.2.days.contains d)) = true
      · rw [if_pos hg] at hgkv
        rw [← hgkv] at hp'r
        cases hp'r
      · rw [if_neg hg] at hgkv
        intro hdp'
        apply hg
        simp only [Bool.and_eq_true, beq_iff_eq, bne_iff_ne, ne_eq,
          List.any_eq_true]
        refine ⟨⟨⟨hke, by rw [hkc]; exact hne⟩, by rw [hgkv]; exact hp'r⟩,
          d, hd, ?_⟩
        rw [hgkv]
        simpa using hdp'
  rw [selectRoomGrid]
  split
  · exact hinv
  · split
    · exact StoreInv_create_entry st e c r hinv
    · rename_i pl hpl
      split
      · exact StoreInv_clear_room st e c hpl hinv
      · rename_i hpne
        dsimp only
        by_cases hhd : (pl.startDay.isSome && !pl.days.isEmpty) = true
        · rw [if_pos hhd]
          by_cases hni : (roomConflictNames st e c r pl.days).isEmpty = true
          · rw [if_neg (by simp [hni])]
            exact StoreInv_set_room st e c r hpl
              (Or.inr (by rwa [List.isEmpty_iff] at hni)) hinv
          · have hni2 : (roomConflictNames st e c r pl.days).isEmpty = false := by
              cases hx : (roomConflictNames st e c r pl.days).isEmpty
              · rfl
              · exact absurd hx hni
            rw [if_pos (by rw [hhd, hni2]; decide)]
            cases choice with
            | cancel => exact hinv
            | draft => exact hdraftinv pl hpl hpne
            | replace => exact hreplinv pl hpl
        · rw [if_neg hhd]
          have hhd2 : (pl.startDay.isSome && !pl.days.isEmpty) = false := by
            cases hx : (pl.startDay.isSome && !pl.days.isEmpty)
            · rfl
            · exact absurd hx hhd
          rw [if_neg (by rw [hhd2]; decide)]
          exact hsetfree pl hpl hhd

/-- The handler `removeCourseFromEvent` only erases a store entry, so the store
invariant is preserved. -/
theorem remove_preserves_StoreInv (st : AppState) (c e : String)
    (hinv : StoreInv st.schedule) :
    StoreInv (removeCourseFromEvent st c e).schedule := by
  rw [removeCourseFromEvent]
  exact StoreInv_schedErase e c hinv

/-- The handler `handleAssignmentChange` leaves the schedule untouched on check and
erases one entry on uncheck, so the store invariant is preserved. -/
theorem assignChange_preserves_StoreInv (st : AppState) (c e : String)
    (b : Bool) (hinv : StoreInv st.schedule) :
    StoreInv (handleAssignmentChange st c e b).schedule := by
  rw [handleAssignmentChange]
  cases b with
  | true =>
    dsimp only
    rw [if_pos rfl]
    exact hinv
  | false =>
    dsimp only
    rw [if_neg (by decide)]
    exact StoreInv_schedErase e c hinv

/-- Every single user operation preserves the store invariant. -/
theorem applyUserOp_preserves_StoreInv (st : AppState) (op : UserOp)
    (hinv : StoreInv st.schedule) :
    StoreInv (applyUserOp st op).schedule := by
  cases op with
  | drop dragged tc te td tg => exact drop_preserves_StoreInv st dragged tc te td tg hinv
  | changeRoom e c r => exact changeRoom_preserves_StoreInv st e c r hinv
  | selectRoom e c r choice => exact selectRoom_preserves_StoreInv st e c r choice hinv
  | remove c e => exact remove_preserves_StoreInv st c e hinv
  | assignChange c e b => exact assignChange_preserves_StoreInv st c e b hinv

/-- The empty store satisfies the invariant. -/
theorem StoreInv_nil : StoreInv ([] : Sched) := by
  constructor
  · intro k p h
    exact absurd h (List.not_mem_nil _)
  · intro e c₁ c₂ p₁ p₂ r hne h₁ h₂
    simp [schedFind?] at h₁

/-- C1 counterexample: the claim includes bulk schedule import among the
overlap-safe operations, but `importSchedule` performs no room-conflict
check at all.  Starting from an invariant-satisfying (empty) store,
loading two rows that put courses "C1" and "C2" of event "E" into room
1 over the same days 1-2 commits two non-draft placements in the same
event and room with identical (hence non-disjoint) day sets, violating
P2. -/
theorem c1_import_overlap_counterexample :
    StoreInv
      ({ courses := [{ Course_ID := "C1", Instructor := "A", Course_Name := "N",
                       Duration_Days := "2" },
                     { Course_ID := "C2", Instructor := "B", Course_Name := "M",
                       Duration_Days := "2" }],
         events := [{ Event_ID := "E", Event := "Ev", Total_Days := 2 }],
         eventDays := [{ Event_ID := "E", Event_Name := "Ev", Day_Number := 1,
                         Day_Date := 100 },
                       { Event_ID := "E", Event_Name := "Ev", Day_Number := 2,
                         Day_Date := 101 }],
         eventRooms := [("E", 1)], lockedEvents := [], unavailabilityMap := [],
         schedule := [], assignments := [], draftLists := [] } : AppState).schedule ∧
    schedFind? (importSchedule
      { courses := [{ Course_ID := "C1", Instructor := "A", Course_Name := "N",
                      Duration_Days := "2" },
                    { Course_ID := "C2", Instructor := "B", Course_Name := "M",
                      Duration_Days := "2" }],
        events := [{ Event_ID := "E", Event := "Ev", Total_Days := 2 }],
        eventDays := [{ Event_ID := "E", Event_Name := "Ev", Day_Number := 1,
                        Day_Date := 100 },
                      { Event_ID := "E", Event_Name := "Ev", Day_Number := 2,
                        Day_Date := 101 }],
        eventRooms := [("E", 1)], lockedEvents := [], unavailabilityMap := [],
        schedule := [], assignments := [], draftLists := [] }
      [{ Course_ID := "C1", Duration_Days := "2", First_Day := some 100,
         Last_Day := some 101, Event_ID := some "E", Room_Number := some 1 },
       { Course_ID := "C2", Duration_Days := "2", First_Day := some 100,
         Last_Day := some 101, Event_ID := some "E", Room_Number := some 1 }]
      true).1.schedule "E" "C1" =
      some (Placement.mk (some 1) [1, 2] (some 1) false) ∧
    schedFind? (importSchedule
      { courses := [{ Course_ID := "C1", Instructor := "A", Course_Name := "N",
                      Duration_Days := "2" },
                    { Course_ID := "C2", Instructor := "B", Course_Name := "M",
                      Duration_Days := "2" }],
        events := [{ Event_ID := "E", Event := "Ev", Total_Days := 2 }],
        eventDays := [{ Event_ID := "E", Event_Name := "Ev", Day_Number := 1,
                        Day_Date := 100 },
                      { Event_ID := "E", Event_Name := "Ev", Day_Number := 2,
                        Day_Date := 101 }],
        eventRooms := [("E", 1)], lockedEvents := [], unavailabilityMap := [],
        schedule := [], assignments := [], draftLists := [] }
      [{ Course_ID := "C1", Duration_Days := "2", First_Day := some 100,
         Last_Day := some 101, Event_ID := some "E", Room_Number := some 1 },
       { Course_ID := "C2", Duration_Days := "2", First_Day := some 100,
         Last_Day := some 101, Event_ID := some "E", Room_Number := some 1 }]
      true).1.schedule "E" "C2" =
      some (Placement.mk (some 1) [1, 2] (some 1) false) ∧
    ¬ NoRoomOverlap (importSchedule
      { courses := [{ Course_ID := "C1", Instructor := "A", Course_Name := "N",
                      Duration_Days := "2" },
                    { Course_ID := "C2", Instructor := "B", Course_Name := "M",
                      Duration_Days := "2" }],
        events := [{ Event_ID := "E", Event := "Ev", Total_Days := 2 }],
        eventDays := [{ Event_ID := "E", Event_Name := "Ev", Day_Number := 1,
                        Day_Date := 100 },
                      { Event_ID := "E", Event_Name := "Ev", Day_Number := 2,
                        Day_Date := 101 }],
        eventRooms := [("E", 1)], lockedEvents := [], unavailabilityMap := [],
        schedule := [], assignments := [], draftLists := [] }
      [{ Course_ID := "C1", Duration_Days := "2", First_Day := some 100,
         Last_Day := some 101, Event_ID := some "E", Room_Number := some 1 },
       { Course_ID := "C2", Duration_Days := "2", First_Day := some 100,
         Last_Day := some 101, Event_ID := some "E", Room_Number := some 1 }]
      true).1.schedule := by
  refine ⟨StoreInv_nil, by decide, by decide, ?_⟩
  intro h
  have hd := h "E" "C1" "C2" (Placement.mk (some 1) [1, 2] (some 1) false)
    (Placement.mk (some 1) [1, 2] (some 1) false) 1
    (by decide) (by decide) (by decide) rfl rfl rfl rfl
  exact hd 1 (by decide) (by decide)

/-- C1 amended: after any sequence of the interactive placement-creating
and placement-removing operations (grid drag-drop, both room-change
entry points, explicit removal, the assignment checkbox), every pair of
distinct non-draft placements in the same event with the same room has
disjoint day sets, provided this held of the starting store.  The bulk
schedule import must be excluded: it checks no room conflicts (see the
counterexample). -/
theorem c1_user_ops_no_overlap (st : AppState) (ops : List UserOp)
    (hinv : StoreInv st.schedule) :
    StoreInv (applyUserOps st ops).schedule ∧
    NoRoomOverlap (applyUserOps st ops).schedule := by
  suffices h : StoreInv (applyUserOps st ops).schedule from ⟨h, h.2⟩
  induction ops generalizing st with
  | nil => exact hinv
  | cons op rest ih =>
    rw [applyUserOps, List.foldl_cons]
    exact ih (applyUserOp st op) (applyUserOp_preserves_StoreInv st op hinv)

/-- Witness for C1's amended theorem: a concrete two-operation sequence
(a room change then a removal) from the empty store keeps the
overlap-freedom invariant. -/
theorem c1_user_ops_no_overlap_witness :
    NoRoomOverlap (applyUserOps
      { courses := [], events := [], eventDays := [], eventRooms := [],
        lockedEvents := [], unavailabilityMap := [], schedule := [],
        assignments := [], draftLists := [] }
      [UserOp.changeRoom "E" "C1" 2, UserOp.remove "C1" "E"]).schedule :=
  (c1_user_ops_no_overlap
    { courses := [], events := [], eventDays := [], eventRooms := [],
      lockedEvents := [], unavailabilityMap := [], schedule := [],
      assignments := [], draftLists := [] }
    [UserOp.changeRoom "E" "C1" 2, UserOp.remove "C1" "E"] StoreInv_nil).2


/-- An import row never touches the course/event/day/room catalogues. -/
theorem importRow_static (st : AppState) (row : ScheduleRow) :
    (importRow st row).1.courses = st.courses ∧
    (importRow st row).1.events = st.events ∧
    (importRow st row).1.eventDays = st.eventDays ∧
    (importRow st row).1.eventRooms = st.eventRooms := by
  rw [importRow_state]
  cases rowAction st row with
  | none => exact ⟨rfl, rfl, rfl, rfl⟩
  | some kv => exact ⟨rfl, rfl, rfl, rfl⟩

/-- The reader `roomCountOf` only consults the room catalogue. -/
theorem roomCountOf_congr {st st' : AppState} (h : st.eventRooms = st'.eventRooms)
    (e : String) : roomCountOf st e = roomCountOf st' e := by
  rw [roomCountOf, roomCountOf, h]

/-- The matcher `findEventDaysForDates` only reads the event and day catalogues. -/
theorem findEventDaysForDates_congr {st st' : AppState}
    (h₁ : st.events = st'.events) (h₂ : st.eventDays = st'.eventDays)
    (e : String) (a b : Int) :
    findEventDaysForDates st e a b = findEventDaysForDates st' e a b := by
  rw [findEventDaysForDates, findEventDaysForDates, h₁, h₂]

/-- The event loop of the legacy date-range matcher only reads the day
catalogue. -/
theorem findEventForDateRangeGo_congr {st st' : AppState}
    (h₂ : st.eventDays = st'.eventDays) (a b : Int) :
    ∀ l, findEventForDateRangeGo st a b l = findEventForDateRangeGo st' a b l := by
  intro l
  induction l with
  | nil => rfl
  | cons ev rest ih =>
    rw [findEventForDateRangeGo, findEventForDateRangeGo, h₂, ih]

/-- The matcher `findEventForDateRange` only reads the event and day catalogues. -/
theorem findEventForDateRange_congr {st st' : AppState}
    (h₁ : st.events = st'.events) (h₂ : st.eventDays = st'.eventDays) (a b : Int) :
    findEventForDateRange st a b = findEventForDateRange st' a b := by
  rw [findEventForDateRange, findEventForDateRange, h₁,
    findEventForDateRangeGo_congr h₂]

/-- The action `rowAction` depends only on the four static catalogue fields. -/
theorem rowAction_congr {st st' : AppState}
    (hc : st.courses = st'.courses) (h₁ : st.events = st'.events)
    (h₂ : st.eventDays = st'.eventDays) (h₃ : st.eventRooms = st'.eventRooms)
    (row : ScheduleRow) : rowAction st row = rowAction st' row := by
  rw [rowAction, rowAction, hc, h₁]
  by_cases hca : (!st'.courses.any (fun c => c.Course_ID == row.Course_ID)) = true
  · rw [if_pos hca, if_pos hca]
  · rw [if_neg hca, if_neg hca]
    have hwm : ∀ m : DayMatch,
        (match row.Room_Number with
         | some roomNumber =>
           if roomNumber < 1 || roomNumber > roomCountOf st m.eventId then none
           else some ((m.eventId, row.Course_ID),
             ({ startDay := some m.startDayNumber, days := m.dayNumbers,
                roomNumber := some roomNumber, isDraft := false } : Placement))
         | none => some ((m.eventId, row.Course_ID),
             ({ startDay := some m.startDayNumber, days := m.dayNumbers,
                roomNumber := none, isDraft := false } : Placement))) =
        (match row.Room_Number with
         | some roomNumber =>
           if roomNumber < 1 || roomNumber > roomCountOf st' m.eventId then none
           else some ((m.eventId, row.Course_ID),
             ({ startDay := some m.startDayNumber, days := m.dayNumbers,
                roomNumber := some roomNumber, isDraft := false } : Placement))
         | none => some ((m.eventId, row.Course_ID),
             ({ startDay := some m.startDayNumber, days := m.dayNumbers,
                roomNumber := none, isDraft := false } : Placement))) := by
      intro m
      rw [roomCountOf_congr h₃]
    rcases row.First_Day with _ | startDate <;> rcases row.Last_Day with _ | endDate
    · rfl
    · rfl
    · rfl
    · dsimp only
      rcases row.Event_ID with _ | eventId
      · dsimp only
        rw [findEventForDateRange_congr h₁ h₂]
        cases findEventForDateRange st' startDate endDate with
        | none => rfl
        | some m => exact hwm m
      · dsimp only
        by_cases hea : (!st'.events.any (fun e => e.Event_ID == eventId)) = true
        · rw [if_pos hea, if_pos hea]
        · rw [if_neg hea, if_neg hea]
          rw [findEventDaysForDates_congr h₁ h₂]
          cases findEventDaysForDates st' eventId startDate endDate with
          | none => rfl
          | some m => exact hwm m

/-- The state component of the import fold is the plain fold of
`importRow` over the states. -/
theorem importFold_fst (rows : List ScheduleRow) :
    ∀ (st : AppState) (out : List RowOutcome),
    (rows.foldl (fun acc row =>
      let r := importRow acc.1 row
      (r.1, acc.2 ++ [r.2])) (st, out)).1 =
    rows.foldl (fun s row => (importRow s row).1) st := by
  induction rows with
  | nil => intro st out; rfl
  | cons row rest ih =>
    intro st out
    rw [List.foldl_cons, List.foldl_cons]
    exact ih _ _


/-- Characterization of a lookup after the import fold: if every row
whose action hits the key `(e, c)` writes the placement `p`, and either
some row does hit it or the key already holds `p`, the final store holds
`p` at `(e, c)`. -/
theorem schedFind?_import_foldl (rows : List ScheduleRow) :
    ∀ (st : AppState) (e c : String) (p : Placement),
    (∀ row ∈ rows, ∀ kv, rowAction st row = some kv → kv.1 = (e, c) → kv.2 = p) →
    ((∃ row ∈ rows, rowAction st row = some ((e, c), p)) ∨
      schedFind? st.schedule e c = some p) →
    schedFind? ((rows.foldl (fun s row => (importRow s row).1) st).schedule) e c =
      some p := by
  induction rows with
  | nil =>
    intro st e c p hall hex
    rcases hex with ⟨row, hmem, -⟩ | hbase
    · exact absurd hmem (List.not_mem_nil row)
    · exact hbase
  | cons row rest ih =>
    intro st e c p hall hex
    rw [List.foldl_cons]
    have hstat := importRow_static st row
    have hcongr : ∀ r' : ScheduleRow,
        rowAction (importRow st row).1 r' = rowAction st r' := fun r' =>
      rowAction_congr hstat.1 hstat.2.1 hstat.2.2.1 hstat.2.2.2 r'
    apply ih (importRow st row).1 e c p
    · intro r' hmem kv hact hkey
      exact hall r' (List.mem_cons_of_mem _ hmem) kv (by rw [← hcongr r']; exact hact) hkey
    · cases hact : rowAction st row with
      | none =>
        have hst : (importRow st row).1 = st := by rw [importRow_state, hact]
        rcases hex with ⟨r', hmem, hr'⟩ | hbase
        · rcases List.mem_cons.1 hmem with rfl | hmem'
          · rw [hact] at hr'
            cases hr'
          · exact Or.inl ⟨r', hmem', by rw [hcongr r']; exact hr'⟩
        · exact Or.inr (by rw [hst]; exact hbase)
      | some kv =>
        have hst : (importRow st row).1 =
            { st with assignments := assignAdd st.assignments kv.1.2 kv.1.1,
                      schedule := schedSet st.schedule kv.1.1 kv.1.2 kv.2 } := by
          rw [importRow_state, hact]
        by_cases hkey : kv.1 = (e, c)
        · have hval : kv.2 = p := hall row (List.mem_cons_self row rest) kv hact hkey
          refine Or.inr ?_
          rw [hst]
          dsimp only
          rw [hkey, hval]
          exact schedFind?_schedSet_self _ _ _ _
        · rcases hex with ⟨r', hmem, hr'⟩ | hbase
          · rcases List.mem_cons.1 hmem with rfl | hmem'
            · rw [hact] at hr'
              injection hr' with hr'
              exact absurd (congrArg Prod.fst hr') hkey
            · exact Or.inl ⟨r', hmem', by rw [hcongr r']; exact hr'⟩
          · refine Or.inr ?_
            rw [hst]
            dsimp only
            rw [schedFind?_schedSet_other]
            · exact hbase
            · intro ⟨h1, h2⟩
              exact hkey (by rw [Prod.ext_iff]; exact ⟨h1.symm, h2.symm⟩)


/-- Searching a consecutive range hits the first satisfying index. -/
theorem find?_range'_eq (q : Nat → Bool) :
    ∀ (len s j : Nat), s ≤ j → j < s + len →
    (∀ i, s ≤ i → i < j → q i = false) → q j = true →
    (List.range' s len).find? q = some j := by
  intro len
  induction len with
  | zero =>
    intro s j h1 h2 h3 h4
    omega
  | succ n ih =>
    intro s j h1 h2 h3 h4
    rw [List.range'_succ, List.find?_cons]
    by_cases hs : s = j
    · rw [hs, h4]
    · rw [h3 s (le_refl s) (by omega)]
      exact ih (s + 1) j (by omega) (by omega) (fun i hi1 hi2 => h3 i (by omega) hi2) h4

/-- Searching a mapped range hits the first satisfying index. -/
theorem find?_range_map_eq {α : Type} (f : Nat → α) (p : α → Bool) (N j : Nat)
    (hj : j < N) (hpre : ∀ i, i < j → p (f i) = false) (hp : p (f j) = true) :
    ((List.range N).map f).find? p = some (f j) := by
  rw [List.find?_map, List.range_eq_range']
  have hq : (p ∘ f) = fun i => p (f i) := rfl
  rw [hq, find?_range'_eq (fun i => p (f i)) N 0 j (Nat.zero_le j) (by omega)
    (fun i _ hi2 => hpre i hi2) hp]
  rfl

/-- The head of a mapped nonempty range. -/
theorem head?_range_map {α : Type} (f : Nat → α) (N : Nat) (hN : 0 < N) :
    ((List.range N).map f).head? = some (f 0) := by
  cases N with
  | zero => omega
  | succ n =>
    rw [List.range_succ_eq_map]
    rfl

/-- The last element of a mapped nonempty range. -/
theorem getLast?_range_map {α : Type} (f : Nat → α) (N : Nat) (hN : 0 < N) :
    ((List.range N).map f).getLast? = some (f (N - 1)) := by
  cases N with
  | zero => omega
  | succ n =>
    rw [List.range_succ, List.map_append]
    simp only [List.map_cons, List.map_nil]
    rw [List.getLast?_concat]
    rfl

/-- A mapped nonempty range is not empty. -/
theorem isEmpty_range_map {α : Type} (f : Nat → α) (N : Nat) (hN : 0 < N) :
    ((List.range N).map f).isEmpty = false := by
  cases N with
  | zero => omega
  | succ n =>
    rw [List.range_succ_eq_map]
    rfl

/-- Inserting into a list permutes consing onto it. -/
theorem insertSorted_perm {α : Type} (le : α → α → Bool) (x : α) :
    ∀ l : List α, List.Perm (insertSorted le x l) (x :: l) := by
  intro l
  induction l with
  | nil => exact List.Perm.refl _
  | cons y ys ih =>
    rw [insertSorted]
    split
    · exact List.Perm.refl _
    · exact List.Perm.trans (List.Perm.cons y ih) (List.Perm.swap x y ys)

/-- The insertion sort permutes its input. -/
theorem sortBy_perm {α : Type} (le : α → α → Bool) :
    ∀ l : List α, List.Perm (sortBy le l) l := by
  intro l
  induction l with
  | nil => exact List.Perm.refl _
  | cons x xs ih =>
    rw [sortBy]
    exact List.Perm.trans (insertSorted_perm le x (sortBy le xs)) (List.Perm.cons x ih)

/-- Membership is preserved by the insertion sort. -/
theorem mem_sortBy_iff {α : Type} (le : α → α → Bool) (l : List α) (a : α) :
    a ∈ sortBy le l ↔ a ∈ l :=
  (sortBy_perm le l).mem_iff

/-- Inserting below every element conses. -/
theorem insertSorted_of_forall {α : Type} (le : α → α → Bool) (x : α)
    (l : List α) (h : ∀ y ∈ l, le x y = true) :
    insertSorted le x l = x :: l := by
  cases l with
  | nil => rfl
  | cons y ys =>
    rw [insertSorted, if_pos (h y (List.mem_cons_self y ys))]

/-- Sorting an already-sorted list is the identity. -/
theorem sortBy_of_pairwise {α : Type} (le : α → α → Bool) :
    ∀ l : List α, List.Pairwise (fun a b => le a b = true) l → sortBy le l = l := by
  intro l
  induction l with
  | nil => intro h; rfl
  | cons x xs ih =>
    intro h
    rw [List.pairwise_cons] at h
    rw [sortBy, ih h.2]
    exact insertSorted_of_forall le x xs h.1

/-- A monotone image of a range is pairwise le-sorted. -/
theorem pairwise_range_map {α : Type} (f : Nat → α) (le : α → α → Bool) (N : Nat)
    (hmono : ∀ i j, i < j → le (f i) (f j) = true) :
    List.Pairwise (fun a b => le a b = true) ((List.range N).map f) := by
  rw [List.pairwise_map]
  exact List.Pairwise.imp (fun {i j} h => hmono i j h) (List.pairwise_lt_range N)


/-- Membership characterization of the export: its rows are exactly the
`exportRowOf` images of the store entries with a non-empty day list and
a known course, taken over the event list. -/
theorem mem_export_iff (st : AppState) (row : ScheduleRow) :
    row ∈ exportScheduleWithRooms st ↔
      ∃ ev ∈ st.events, ∃ cc pp,
        (cc, pp) ∈ eventEntries st.schedule ev.Event_ID ∧
        (!pp.days.isEmpty) = true ∧
        ∃ course, st.courses.find? (fun c => c.Course_ID == cc) = some course ∧
          row = exportRowOf st ev.Event_ID cc pp course := by
  rw [exportScheduleWithRooms]
  rw [mem_sortBy_iff, List.mem_flatMap]
  constructor
  · intro ⟨ev, hev, hrow⟩
    obtain ⟨ec, hec, hf⟩ := List.mem_filterMap.1 hrow
    refine ⟨ev, hev, ec.1, ec.2, hec, ?_⟩
    by_cases hne : (!ec.2.days.isEmpty) = true
    · rw [if_pos hne] at hf
      refine ⟨hne, ?_⟩
      cases hfind : st.courses.find? (fun c => c.Course_ID == ec.1) with
      | none =>
        rw [hfind] at hf
        cases hf
      | some course =>
        rw [hfind] at hf
        refine ⟨course, rfl, ?_⟩
        injection hf with hf
        rw [← hf]
        rfl
    · rw [if_neg hne] at hf
      cases hf
  · intro ⟨ev, hev, cc, pp, hmem, hne, course, hfind, hrow⟩
    refine ⟨ev, hev, List.mem_filterMap.2 ⟨(cc, pp), hmem, ?_⟩⟩
    dsimp only
    rw [if_pos hne, hfind, hrow]
    rfl


/-- Over canonical day records (day numbers `1..N`, consecutive dates
from `base`) and a contiguous day list `a..b`, the export row of an
entry carries the dates of the first and last occupied day. -/
theorem exportRowOf_canonical (st : AppState) (e c nm : String) (p : Placement)
    (course : Course) (a b base : Int) (N : Nat)
    (hcanon : st.eventDays.filter (fun d => d.Event_ID == e) =
      (List.range N).map (fun i : Nat =>
        ({ Event_ID := e, Event_Name := nm, Day_Number := (i : Int) + 1,
           Day_Date := base + (i : Int) } : EventDay)))
    (hdays : p.days = intRangeIncl a b)
    (ha : 1 ≤ a) (hab : a ≤ b) (hbN : b ≤ (N : Int)) :
    exportRowOf st e c p course =
      { Course_ID := c, Duration_Days := course.Duration_Days,
        First_Day := some (base + (a - 1)), Last_Day := some (base + (b - 1)),
        Event_ID := some e, Room_Number := jsFalsyRoom p.roomNumber } := by
  have hsort : sortBy (fun x y : Int => x ≤ y) p.days = p.days := by
    rw [hdays, intRangeIncl]
    exact sortBy_of_pairwise _ _ (pairwise_range_map _ _ _
      (by intro i j hij
          simp only [decide_eq_true_eq]
          omega))
  have hhead : (sortBy (fun x y : Int => x ≤ y) p.days).head? = some (a + ((0 : Nat) : Int)) := by
    rw [hsort, hdays, intRangeIncl]
    exact head?_range_map _ _ (by omega)
  have hlast : (sortBy (fun x y : Int => x ≤ y) p.days).getLast? =
      some (a + (((b - a + 1).toNat - 1 : Nat) : Int)) := by
    rw [hsort, hdays, intRangeIncl]
    exact getLast?_range_map _ _ (by omega)
  have hf1 := find?_range_map_eq
    (fun i : Nat =>
      ({ Event_ID := e, Event_Name := nm, Day_Number := (i : Int) + 1,
         Day_Date := base + (i : Int) } : EventDay))
    (fun d => d.Day_Number == a + ((0 : Nat) : Int)) N (a - 1).toNat
    (by omega)
    (by intro i hi
        simp only [beq_eq_false_iff_ne]
        intro hcontra
        omega)
    (by simp only [beq_iff_eq]
        omega)
  have hf2 := find?_range_map_eq
    (fun i : Nat =>
      ({ Event_ID := e, Event_Name := nm, Day_Number := (i : Int) + 1,
         Day_Date := base + (i : Int) } : EventDay))
    (fun d => d.Day_Number == a + (((b - a + 1).toNat - 1 : Nat) : Int)) N (b - 1).toNat
    (by omega)
    (by intro i hi
        simp only [beq_eq_false_iff_ne]
        intro hcontra
        omega)
    (by simp only [beq_iff_eq]
        omega)
  rw [exportRowOf]
  rw [hhead, hlast]
  simp only [Option.getD_some]
  rw [hcanon, hf1, hf2]
  simp only [Option.map_some']
  simp only [ScheduleRow.mk.injEq]
  refine ⟨trivial, trivial, ?_, ?_, trivial, trivial⟩
  · congr 1
    omega
  · congr 1
    omega


/-- Over canonical day records, `findEventDaysForDates` maps the first
and last dates of a day range `a..b` back to the day numbers `a` and
`b`. -/
theorem findEventDaysForDates_canonical (st : AppState) (e nm : String)
    (ev₀ : EventRec) (a b base : Int) (N : Nat)
    (hfindev : st.events.find? (fun ev => ev.Event_ID == e) = some ev₀)
    (hcanon : st.eventDays.filter (fun d => d.Event_ID == e) =
      (List.range N).map (fun i : Nat =>
        ({ Event_ID := e, Event_Name := nm, Day_Number := (i : Int) + 1,
           Day_Date := base + (i : Int) } : EventDay)))
    (ha : 1 ≤ a) (hab : a ≤ b) (hbN : b ≤ (N : Int)) :
    findEventDaysForDates st e (base + (a - 1)) (base + (b - 1)) =
      some { eventId := e, eventName := ev₀.Event, startDayNumber := a,
             endDayNumber := b, dayNumbers := intRangeIncl a b } := by
  have hsorted : sortBy dayNumLe ((List.range N).map (fun i : Nat =>
      ({ Event_ID := e, Event_Name := nm, Day_Number := (i : Int) + 1,
         Day_Date := base + (i : Int) } : EventDay))) =
      (List.range N).map (fun i : Nat =>
      ({ Event_ID := e, Event_Name := nm, Day_Number := (i : Int) + 1,
         Day_Date := base + (i : Int) } : EventDay)) := by
    apply sortBy_of_pairwise
    apply pairwise_range_map
    intro i j hij
    rw [dayNumLe]
    simp only [decide_eq_true_eq]
    omega
  have hfA := find?_range_map_eq
    (fun i : Nat =>
      ({ Event_ID := e, Event_Name := nm, Day_Number := (i : Int) + 1,
         Day_Date := base + (i : Int) } : EventDay))
    (fun d => d.Day_Date == base + (a - 1)) N (a - 1).toNat
    (by omega)
    (by intro i hi
        simp only [beq_eq_false_iff_ne]
        intro hcontra
        omega)
    (by simp only [beq_iff_eq]
        omega)
  have hfB := find?_range_map_eq
    (fun i : Nat =>
      ({ Event_ID := e, Event_Name := nm, Day_Number := (i : Int) + 1,
         Day_Date := base + (i : Int) } : EventDay))
    (fun d => d.Day_Date == base + (b - 1)) N (b - 1).toNat
    (by omega)
    (by intro i hi
        simp only [beq_eq_false_iff_ne]
        intro hcontra
        omega)
    (by simp only [beq_iff_eq]
        omega)
  rw [findEventDaysForDates]
  split
  · rename_i h
    rw [hfindev] at h
    cases h
  · rename_i event h
    rw [hfindev] at h
    injection h with h
    subst h
    rw [hcanon, hsorted]
    rw [if_neg (by intro hc
                   rw [isEmpty_range_map _ _ (by omega)] at hc
                   cases hc)]
    rw [hfA, hfB]
    simp only [Option.map_some']
    rw [(by omega : ((a - 1).toNat : Int) + 1 = a), (by omega : ((b - 1).toNat : Int) + 1 = b)]


/-- The import action of the row exported for a canonical entry: the
row is accepted and commits the same key, the same contiguous days, a
non-draft flag, and the room surviving the falsy-room export. -/
theorem rowAction_export_row (st : AppState) (e c nm dur : String) (p : Placement)
    (ev₀ : EventRec) (a b base : Int) (N : Nat)
    (hcourse : st.courses.any (fun cr => cr.Course_ID == c) = true)
    (hfindev : st.events.find? (fun ev => ev.Event_ID == e) = some ev₀)
    (hcanon : st.eventDays.filter (fun d => d.Event_ID == e) =
      (List.range N).map (fun i : Nat =>
        ({ Event_ID := e, Event_Name := nm, Day_Number := (i : Int) + 1,
           Day_Date := base + (i : Int) } : EventDay)))
    (ha : 1 ≤ a) (hab : a ≤ b) (hbN : b ≤ (N : Int))
    (hroom : p.roomNumber = none ∨ p.roomNumber = some 0 ∨
      ∃ r, p.roomNumber = some r ∧ 1 ≤ r ∧ r ≤ roomCountOf st e) :
    rowAction st
      { Course_ID := c, Duration_Days := dur,
        First_Day := some (base + (a - 1)), Last_Day := some (base + (b - 1)),
        Event_ID := some e, Room_Number := jsFalsyRoom p.roomNumber } =
      some ((e, c),
        { startDay := some a, days := intRangeIncl a b,
          roomNumber := jsFalsyRoom p.roomNumber, isDraft := false }) := by
  have hev : st.events.any (fun ev => ev.Event_ID == e) = true := by
    have hpe := List.find?_some hfindev
    rw [List.any_eq_true]
    exact ⟨ev₀, List.mem_of_find?_eq_some hfindev, hpe⟩
  have hfed := findEventDaysForDates_canonical st e nm ev₀ a b base N hfindev
    hcanon ha hab hbN
  rw [rowAction]
  rw [if_neg (by rw [hcourse]; decide)]
  simp only []
  rw [if_neg (by rw [hev]; decide)]
  rw [hfed]
  simp only []
  rcases hroom with h0 | h0 | ⟨r, hr, hr1, hr2⟩
  · have hjs : jsFalsyRoom p.roomNumber = none := by
      rw [h0]
      rfl
    rw [hjs]
  · have hjs : jsFalsyRoom p.roomNumber = none := by
      rw [h0]
      rfl
    rw [hjs]
  · have hjs : jsFalsyRoom p.roomNumber = some r := by
      rw [hr]
      simp only [jsFalsyRoom]
      rw [if_neg (by simp only [beq_iff_eq]; omega)]
    rw [hjs]
    simp only []
    rw [if_neg (by intro hc
                   simp only [Bool.or_eq_true, decide_eq_true_eq] at hc
                   omega)]


/-- A date-range match against an explicit event id reports that id. -/
theorem findEventDaysForDates_eventId {st : AppState} {eid : String}
    {d₁ d₂ : Int} {m : DayMatch}
    (h : findEventDaysForDates st eid d₁ d₂ = some m) : m.eventId = eid := by
  rw [findEventDaysForDates] at h
  split at h
  · cases h
  · dsimp only at h
    split at h
    · cases h
    · split at h
      · injection h with h
        rw [← h]
      · cases h

/-- The key committed by a row action: the row's course id, and the
row's explicit event id when one is present. -/
theorem rowAction_key {st : AppState} {row : ScheduleRow}
    {kv : (String × String) × Placement} (h : rowAction st row = some kv) :
    kv.1.2 = row.Course_ID ∧ ∀ eid, row.Event_ID = some eid → kv.1.1 = eid := by
  rw [rowAction] at h
  split at h
  · cases h
  · split at h
    · rename_i startDate endDate hdates
      dsimp only at h
      split at h
      · rename_i eid heid
        split at h
        · cases h
        · split at h
          · cases h
          · rename_i m hm
            have hmid := findEventDaysForDates_eventId hm
            split at h
            · split at h
              · cases h
              · injection h with h
                rw [← h]
                exact ⟨rfl, fun eid' heq => by
                  rw [heid] at heq
                  injection heq with heq
                  rw [hmid, heq]⟩
            · injection h with h
              rw [← h]
              exact ⟨rfl, fun eid' heq => by
                rw [heid] at heq
                injection heq with heq
                rw [hmid, heq]⟩
      · rename_i heid
        split at h
        · cases h
        · rename_i m hm
          split at h
          · split at h
            · cases h
            · injection h with h
              rw [← h]
              exact ⟨rfl, fun eid' heq => by
                rw [heid] at heq
                cases heq⟩
          · injection h with h
            rw [← h]
            exact ⟨rfl, fun eid' heq => by
              rw [heid] at heq
              cases heq⟩
    · cases h

/-- An event-entry listing comes from a store entry. -/
theorem mem_of_mem_eventEntries {s : Sched} {e c : String} {p : Placement}
    (h : (c, p) ∈ eventEntries s e) : ((e, c), p) ∈ s := by
  unfold eventEntries at h
  rw [List.mem_map] at h
  obtain ⟨kv, hkv, heq⟩ := h
  rw [List.mem_filter] at hkv
  have he : kv.1.1 = e := by
    have := hkv.2
    simpa using this
  have hc : kv.1.2 = c := congrArg Prod.fst heq
  have hp : kv.2 = p := congrArg Prod.snd heq
  have : kv = ((e, c), p) := by
    rw [Prod.ext_iff, Prod.ext_iff]
    exact ⟨⟨he, hc⟩, hp⟩
  rw [← this]
  exact hkv.1

/-- With duplicate-free keys, every entry at a key carries the value the
lookup returns. -/
theorem value_eq_of_nodup {s : Sched} (hnd : (s.map Prod.fst).Nodup)
    {e c : String} {p q : Placement}
    (hfind : schedFind? s e c = some p) (hmem : ((e, c), q) ∈ s) : q = p := by
  induction s with
  | nil => exact absurd hmem (List.not_mem_nil _)
  | cons kv rest ih =>
    rw [List.map_cons, List.nodup_cons] at hnd
    rcases List.mem_cons.1 hmem with heq | hmem'
    · rw [schedFind?, List.find?_cons] at hfind
      rw [← heq] at hfind
      simp only [beq_self_eq_true, Bool.and_self, Option.map_some'] at hfind
      injection hfind
    · rw [schedFind?, List.find?_cons] at hfind
      by_cases hk : (kv.1.1 == e && kv.1.2 == c) = true
      · exfalso
        apply hnd.1
        rw [List.mem_map]
        refine ⟨((e, c), q), hmem', ?_⟩
        simp only [Bool.and_eq_true, beq_iff_eq] at hk
        rw [Prod.ext_iff]
        exact ⟨hk.1.symm, hk.2.symm⟩
      · have hk' : (kv.1.1 == e && kv.1.2 == c) = false := by
          cases hx : (kv.1.1 == e && kv.1.2 == c)
          · rfl
          · exact absurd hx hk
        rw [hk'] at hfind
        exact ih hnd.2 hfind hmem'


/-- C7 amended: the export/import round trip does not reproduce the
store verbatim (the counterexample shows the draft flag is dropped), but
over canonical calendar data it reproduces each entry's day set exactly,
its room number modulo the falsy-room export (`0` becomes `null`), with
the start day recomputed from the first day and the draft flag reset.
Hypotheses: unique store keys, the event and course present in the
catalogues, canonical day records (numbers `1..N`, consecutive dates),
a contiguous day list `a..b` within the event, and a room that is
absent, `0`, or within the configured room count. -/
theorem c7_round_trip_amended (st : AppState) (e c nm : String) (p : Placement)
    (course : Course) (ev₀ : EventRec) (a b base : Int) (N : Nat)
    (hfind : schedFind? st.schedule e c = some p)
    (hkeys : (st.schedule.map Prod.fst).Nodup)
    (hfindev : st.events.find? (fun ev => ev.Event_ID == e) = some ev₀)
    (hcourse : st.courses.find? (fun cr => cr.Course_ID == c) = some course)
    (hcanon : st.eventDays.filter (fun d => d.Event_ID == e) =
      (List.range N).map (fun i : Nat =>
        ({ Event_ID := e, Event_Name := nm, Day_Number := (i : Int) + 1,
           Day_Date := base + (i : Int) } : EventDay)))
    (hdays : p.days = intRangeIncl a b)
    (ha : 1 ≤ a) (hab : a ≤ b) (hbN : b ≤ (N : Int))
    (hroom : p.roomNumber = none ∨ p.roomNumber = some 0 ∨
      ∃ r, p.roomNumber = some r ∧ 1 ≤ r ∧ r ≤ roomCountOf st e) :
    schedFind? (importSchedule st (exportScheduleWithRooms st) true).1.schedule e c =
      some { startDay := some a, days := p.days,
             roomNumber := jsFalsyRoom p.roomNumber, isDraft := false } := by
  have hcourse_any : st.courses.any (fun cr => cr.Course_ID == c) = true := by
    have hp := List.find?_some hcourse
    rw [List.any_eq_true]
    exact ⟨course, List.mem_of_find?_eq_some hcourse, hp⟩
  have hevmem : ev₀ ∈ st.events := List.mem_of_find?_eq_some hfindev
  have hevid : ev₀.Event_ID = e := by
    have hp := List.find?_some hfindev
    simpa using hp
  have hrowcanon := exportRowOf_canonical st e c nm p course a b base N hcanon
    hdays ha hab hbN
  have hact : rowAction st (exportRowOf st e c p course) =
      some ((e, c), { startDay := some a, days := intRangeIncl a b,
                      roomNumber := jsFalsyRoom p.roomNumber, isDraft := false }) := by
    rw [hrowcanon]
    exact rowAction_export_row st e c nm course.Duration_Days p ev₀ a b base N
      hcourse_any hfindev hcanon ha hab hbN hroom
  have hnonempty : (!p.days.isEmpty) = true := by
    rw [hdays, intRangeIncl, isEmpty_range_map _ _ (by omega)]
    rfl
  have hmemrow : exportRowOf st e c p course ∈ exportScheduleWithRooms st := by
    rw [mem_export_iff]
    refine ⟨ev₀, hevmem, c, p, ?_, hnonempty, course, hcourse, ?_⟩
    · rw [hevid]
      exact mem_eventEntries_of_schedFind? hfind
    · rw [hevid]
  rw [importSchedule]
  rw [if_neg (by simp)]
  rw [importFold_fst]
  rw [hdays]
  apply schedFind?_import_foldl
  · intro row hrow kv hactrow hkey
    rw [mem_export_iff] at hrow
    obtain ⟨ev₁, hev₁, cc, pp, hppmem, hppne, course₁, hcourse₁, hroweq⟩ := hrow
    have hkeyinfo := rowAction_key hactrow
    have hcc : kv.1.2 = cc := by
      rw [hkeyinfo.1, hroweq]
      rfl
    have hevid1 : kv.1.1 = ev₁.Event_ID := hkeyinfo.2 ev₁.Event_ID (by rw [hroweq]; rfl)
    have he1 : ev₁.Event_ID = e := by
      rw [← hevid1, hkey]
    have hc1 : cc = c := by
      rw [← hcc, hkey]
    have hppm : ((e, c), pp) ∈ st.schedule := by
      have hm := mem_of_mem_eventEntries hppmem
      rw [he1, hc1] at hm
      exact hm
    have hppp : pp = p := value_eq_of_nodup hkeys hfind hppm
    have hcourseeq : course₁ = course := by
      rw [hc1] at hcourse₁
      rw [hcourse] at hcourse₁
      injection hcourse₁ with h2
      exact h2.symm
    rw [hroweq, he1, hc1, hppp, hcourseeq, hact] at hactrow
    injection hactrow with hactrow
    rw [← hactrow]
  · exact Or.inl ⟨exportRowOf st e c p course, hmemrow, hact⟩


/-- C7 counterexample: the round trip does not reproduce the draft
flag.  A draft placement (days 1-2, room 1 of event "E") exports to a
row carrying no draft column, and re-importing the export commits the
same days and room as a non-draft placement, so the round-tripped store
differs from the original. -/
theorem c7_round_trip_counterexample :
    schedFind?
      ({ courses := [{ Course_ID := "C1", Instructor := "A", Course_Name := "N",
                       Duration_Days := "2" }],
         events := [{ Event_ID := "E", Event := "Ev", Total_Days := 2 }],
         eventDays := [{ Event_ID := "E", Event_Name := "Ev", Day_Number := 1,
                         Day_Date := 100 },
                       { Event_ID := "E", Event_Name := "Ev", Day_Number := 2,
                         Day_Date := 101 }],
         eventRooms := [("E", 1)], lockedEvents := [], unavailabilityMap := [],
         schedule := [(("E", "C1"), Placement.mk (some 1) [1, 2] (some 1) true)],
         assignments := [("C1", ["E"])], draftLists := [] } : AppState).schedule
      "E" "C1" = some (Placement.mk (some 1) [1, 2] (some 1) true) ∧
    schedFind? (importSchedule
      { courses := [{ Course_ID := "C1", Instructor := "A", Course_Name := "N",
                      Duration_Days := "2" }],
        events := [{ Event_ID := "E", Event := "Ev", Total_Days := 2 }],
        eventDays := [{ Event_ID := "E", Event_Name := "Ev", Day_Number := 1,
                        Day_Date := 100 },
                      { Event_ID := "E", Event_Name := "Ev", Day_Number := 2,
                        Day_Date := 101 }],
        eventRooms := [("E", 1)], lockedEvents := [], unavailabilityMap := [],
        schedule := [(("E", "C1"), Placement.mk (some 1) [1, 2] (some 1) true)],
        assignments := [("C1", ["E"])], draftLists := [] }
      (exportScheduleWithRooms
        { courses := [{ Course_ID := "C1", Instructor := "A", Course_Name := "N",
                        Duration_Days := "2" }],
          events := [{ Event_ID := "E", Event := "Ev", Total_Days := 2 }],
          eventDays := [{ Event_ID := "E", Event_Name := "Ev", Day_Number := 1,
                          Day_Date := 100 },
                        { Event_ID := "E", Event_Name := "Ev", Day_Number := 2,
                          Day_Date := 101 }],
          eventRooms := [("E", 1)], lockedEvents := [], unavailabilityMap := [],
          schedule := [(("E", "C1"), Placement.mk (some 1) [1, 2] (some 1) true)],
          assignments := [("C1", ["E"])], draftLists := [] })
      true).1.schedule "E" "C1" =
      some (Placement.mk (some 1) [1, 2] (some 1) false) ∧
    Placement.mk (some 1) [1, 2] (some 1) true ≠
      Placement.mk (some 1) [1, 2] (some 1) false := by
  refine ⟨by decide, by decide, by decide⟩

/-- Witness for C7's amended theorem: the round trip on a concrete
two-day store entry with no room reproduces the entry's days with the
draft flag cleared. -/
theorem c7_round_trip_amended_witness :
    schedFind? (importSchedule
      { courses := [{ Course_ID := "C1", Instructor := "A", Course_Name := "N",
                      Duration_Days := "2" }],
        events := [{ Event_ID := "E", Event := "Ev", Total_Days := 2 }],
        eventDays := [{ Event_ID := "E", Event_Name := "Ev", Day_Number := 1,
                        Day_Date := 100 },
                      { Event_ID := "E", Event_Name := "Ev", Day_Number := 2,
                        Day_Date := 101 }],
        eventRooms := [("E", 1)], lockedEvents := [], unavailabilityMap := [],
        schedule := [(("E", "C1"), Placement.mk (some 1) [1, 2] none true)],
        assignments := [("C1", ["E"])], draftLists := [] }
      (exportScheduleWithRooms
        { courses := [{ Course_ID := "C1", Instructor := "A", Course_Name := "N",
                        Duration_Days := "2" }],
          events := [{ Event_ID := "E", Event := "Ev", Total_Days := 2 }],
          eventDays := [{ Event_ID := "E", Event_Name := "Ev", Day_Number := 1,
                          Day_Date := 100 },
                        { Event_ID := "E", Event_Name := "Ev", Day_Number := 2,
                          Day_Date := 101 }],
          eventRooms := [("E", 1)], lockedEvents := [], unavailabilityMap := [],
          schedule := [(("E", "C1"), Placement.mk (some 1) [1, 2] none true)],
          assignments := [("C1", ["E"])], draftLists := [] })
      true).1.schedule "E" "C1" =
      some (Placement.mk (some 1) [1, 2] (jsFalsyRoom none) false) :=
  c7_round_trip_amended
    { courses := [{ Course_ID := "C1", Instructor := "A", Course_Name := "N",
                    Duration_Days := "2" }],
      events := [{ Event_ID := "E", Event := "Ev", Total_Days := 2 }],
      eventDays := [{ Event_ID := "E", Event_Name := "Ev", Day_Number := 1,
                      Day_Date := 100 },
                    { Event_ID := "E", Event_Name := "Ev", Day_Number := 2,
                      Day_Date := 101 }],
      eventRooms := [("E", 1)], lockedEvents := [], unavailabilityMap := [],
      schedule := [(("E", "C1"), Placement.mk (some 1) [1, 2] none true)],
      assignments := [("C1", ["E"])], draftLists := [] }
    "E" "C1" "Ev" (Placement.mk (some 1) [1, 2] none true)
    { Course_ID := "C1", Instructor := "A", Course_Name := "N", Duration_Days := "2" }
    { Event_ID := "E", Event := "Ev", Total_Days := 2 } 1 2 100 2
    (by decide) (by decide) (by decide) (by decide) (by decide) (by decide)
    (by decide) (by decide) (by decide) (Or.inl rfl)


end SchedulePro
